import Mathlib

/-!
Shallow embedding of the MUD server core, translated from
`src/server/world_manager.py`, `src/logic/party.py` and `src/logic/combat.py`.

Conventions of the embedding:
* Python object aliasing is modelled positionally: a `Combatant` that the
  source holds by reference is identified by its index into
  `CombatInstance.combatants`, and in-place mutation becomes a functional
  update at that index.  Characters live inside their combatant record;
  rooms live in a registry keyed by uid, and Room object identity is uid
  equality.  Dicts are insertion-ordered association lists.
* Randomness (`random.random`, `random.randint`, `random.choice`) is passed
  in as explicit parameters: a hit Boolean, a damage variance integer, a
  flee-success Boolean, an index choice, an initiative-roll stream.
* `asyncio` timers carry no behaviour of their own here: a scheduled turn
  timer task is `some false` (pending), `some true` (already done), `none`
  (absent); the `loop : Bool` parameter says whether an event loop is
  running, selecting between `create_task` and the `RuntimeError` fallback
  branches of the source.
* Broadcast / notification callbacks never touch the modelled state, so
  they are dropped; the strings returned to the acting player are kept
  (markup preserved, apostrophes dropped).
* Since NPC turns recurse through the attack handler, the recursive turn
  functions take an explicit fuel parameter; exhausted fuel returns the
  state reached so far.
-/

namespace MUD

/- ------------------------------------------------------------------ -/
/- Dict helpers: insertion-ordered association lists                   -/
/- ------------------------------------------------------------------ -/

/-- `d[k] = v` on an insertion-ordered dict: replace in place, else append. -/
def dictSet [BEq κ] (k : κ) (v : α) : List (κ × α) → List (κ × α)
  | [] => [(k, v)]
  | (k', v') :: rest => if k' == k then (k, v) :: rest else (k', v') :: dictSet k v rest

/-- `d.pop(k, None)` / `del d[k]` on a dict: drop the entry for `k`. -/
def dictPop [BEq κ] (k : κ) : List (κ × α) → List (κ × α)
  | [] => []
  | (k', v') :: rest => if k' == k then rest else (k', v') :: dictPop k rest

/-- Update the element at index `i` of a list in place. -/
def updateAt (i : Nat) (f : α → α) : List α → List α
  | [] => []
  | x :: xs => match i with
    | 0 => f x :: xs
    | n + 1 => x :: updateAt n f xs

/- ------------------------------------------------------------------ -/
/- Data model                                                          -/
/- ------------------------------------------------------------------ -/

/-- Weapon, from `Objects/Items/weapons.py` (`attackBonus`; `hitChance` is a
probability, so hit outcomes enter as Boolean parameters instead). -/
structure Weapon where
  name : String
  attackBonus : Int
deriving DecidableEq

/-- Character, from `Objects/Characters/character.py` (`PlayerCharacter`):
the fields the combat / world core reads and writes. -/
structure Character where
  name : String
  hp : Int
  stamina : Int
  base_attack : Int
  is_knocked_out : Bool
  equipped_weapon : Option Weapon
deriving DecidableEq

/-- `logic/combat.py` — `Combatant` dataclass. -/
structure Combatant where
  character_id : Int
  character : Character
  team : Int
  is_defending : Bool := false
  is_knocked_out : Bool := false
  is_npc : Bool := false
  initiative : Int := 0
deriving DecidableEq

/-- `logic/combat.py` — `CombatInstance` dataclass.  `room` is kept as the
room uid (only ever a broadcast target).  `turn_timer_task` is the pending
asyncio task: `some done?` or `none`. -/
structure CombatInstance where
  combatants : List Combatant := []
  current_turn_index : Nat := 0
  room : String := ""
  turn_timer_task : Option Bool := none
  round_number : Nat := 1
deriving DecidableEq

namespace CombatInstance

/-- `CombatInstance.get_active_combatants`. -/
def get_active_combatants (c : CombatInstance) : List Combatant :=
  c.combatants.filter (fun x => !x.is_knocked_out)

/-- `CombatInstance.current_combatant` property. -/
def current_combatant (c : CombatInstance) : Option Combatant :=
  if c.combatants.isEmpty then none
  else
    let active := c.get_active_combatants
    if active.isEmpty then none
    else active[c.current_turn_index % active.length]?

/-- `CombatInstance.get_enemies` (living combatants of the other team). -/
def get_enemies (c : CombatInstance) (combatant : Combatant) : List Combatant :=
  c.combatants.filter (fun x => x.team != combatant.team && !x.is_knocked_out)

/-- `CombatInstance.is_over`: the set of teams still owning a
non-knocked-out combatant has size at most one (`set` modelled by
`List.dedup`). -/
def is_over (c : CombatInstance) : Bool :=
  decide (((c.combatants.filter (fun x => !x.is_knocked_out)).map (fun x => x.team)).dedup.length ≤ 1)

end CombatInstance

/- ------------------------------------------------------------------ -/
/- World registry (`server/world_manager.py`)                          -/
/- ------------------------------------------------------------------ -/

/-- `GameSession` dataclass.  The player entity is identified by an object
id; `room` holds the current room uid. -/
structure GameSession where
  character_id : Int
  player : Nat
  room : String
deriving DecidableEq

/-- The mutable part of a `Room` that the world registry touches:
its identity and its `present_players` list (player object ids). -/
structure RoomState where
  uid : String
  present_players : List Nat
deriving DecidableEq

/-- `WorldManager` state: `sessions` (character_id → GameSession) and the
room registry keyed by uid. -/
structure WorldState where
  sessions : List (Int × GameSession) := []
  rooms : List (String × RoomState) := []
deriving DecidableEq

namespace WorldState

/-- Apply an in-place mutation to the room object with the given uid. -/
def updateRoom (w : WorldState) (uid : String) (f : RoomState → RoomState) : WorldState :=
  { w with rooms := w.rooms.map (fun p => if p.1 == uid then (p.1, f p.2) else p) }

end WorldState

namespace WorldManager

/-- `WorldManager.join`: builds a fresh session, stores it under the
character id (a dict assignment — it overwrites any previous session),
appends the player to the room `present_players` list and broadcasts. -/
def join (w : WorldState) (character_id : Int) (player : Nat) (room : String) : WorldState :=
  let session : GameSession := ⟨character_id, player, room⟩
  let w := { w with sessions := dictSet character_id session w.sessions }
  w.updateRoom room (fun r => { r with present_players := r.present_players ++ [player] })

/-- `WorldManager.leave`: pop the session, drop the player from its room
(the persistence hand-off mutates no registry state). -/
def leave (w : WorldState) (character_id : Int) : WorldState :=
  match w.sessions.lookup character_id with
  | none => w
  | some session =>
    let w := { w with sessions := dictPop character_id w.sessions }
    w.updateRoom session.room (fun r =>
      if r.present_players.contains session.player then
        { r with present_players := r.present_players.erase session.player }
      else r)

/-- `WorldManager.move_player`: remove the player from the old room, append
it to the target room, repoint the session.  The source performs no combat
check and returns `None`. -/
def move_player (w : WorldState) (character_id : Int) (target_room : String) : WorldState :=
  match w.sessions.lookup character_id with
  | none => w
  | some session =>
    let old_room := session.room
    let player := session.player
    let w := w.updateRoom old_room (fun r =>
      if r.present_players.contains player then
        { r with present_players := r.present_players.erase player }
      else r)
    let w := w.updateRoom target_room (fun r =>
      { r with present_players := r.present_players ++ [player] })
    { w with sessions := dictSet character_id { session with room := target_room } w.sessions }

end WorldManager

/- ------------------------------------------------------------------ -/
/- Party service (`logic/party.py`)                                    -/
/- ------------------------------------------------------------------ -/

def MAX_PARTY_SIZE : Nat := 4

/-- `PartyManager` state: `parties` (leader id → member ids, leader
included) and `invites` (invitee id → inviter id). -/
structure PartyState where
  parties : List (Int × List Int) := []
  invites : List (Int × Int) := []
deriving DecidableEq

namespace PartyManager

/-- `PartyManager._find_party_leader`: first party whose member list
contains the character. -/
def find_party_leader (ps : PartyState) (character_id : Int) : Option Int :=
  (ps.parties.find? (fun p => p.2.contains character_id)).map (fun p => p.1)

/-- `PartyManager.get_party_members`. -/
def get_party_members (ps : PartyState) (character_id : Int) : List Int :=
  match find_party_leader ps character_id with
  | none => [character_id]
  | some leader => (ps.parties.lookup leader).getD []

/-- `PartyManager.get_party_members_in_room`. -/
def get_party_members_in_room (ps : PartyState) (w : WorldState)
    (character_id : Int) (room_uid : String) : List Int :=
  (get_party_members ps character_id).filter (fun mid =>
    match w.sessions.lookup mid with
    | some session => session.room == room_uid
    | none => false)

/-- `PartyManager.invite`. -/
def invite (ps : PartyState) (w : WorldState) (inviter_id invitee_id : Int) :
    PartyState × List String :=
  match w.sessions.lookup inviter_id, w.sessions.lookup invitee_id with
  | some inviter_session, some invitee_session =>
    if inviter_session.room != invitee_session.room then
      (ps, ["[red]That player is not in this room.[/red]"])
    else if (find_party_leader ps invitee_id).isSome then
      (ps, ["[red]Invitee is already in a party.[/red]"])
    else if MAX_PARTY_SIZE ≤ (get_party_members ps inviter_id).length then
      (ps, ["[red]Your party is full (max 4).[/red]"])
    else if (ps.invites.lookup invitee_id).isSome then
      (ps, ["[red]Invitee already has a pending invite.[/red]"])
    else
      ({ ps with invites := dictSet invitee_id inviter_id ps.invites },
       ["[dim]Invite sent.[/dim]"])
  | _, _ => (ps, ["[red]Player not found.[/red]"])

/-- `PartyManager.accept`. -/
def accept (ps : PartyState) (w : WorldState) (character_id : Int) :
    PartyState × List String :=
  match ps.invites.lookup character_id with
  | none => (ps, ["[red]You have no pending party invite.[/red]"])
  | some inviter_id =>
    let ps := { ps with invites := dictPop character_id ps.invites }
    match w.sessions.lookup inviter_id, w.sessions.lookup character_id with
    | some _, some _ =>
      let state :=
        match find_party_leader ps inviter_id with
        | some l => (l, ps)
        | none =>
          (inviter_id, { ps with parties := dictSet inviter_id [inviter_id] ps.parties })
      let leader := state.1
      let ps := state.2
      let members := (ps.parties.lookup leader).getD []
      if MAX_PARTY_SIZE ≤ members.length then
        (ps, ["[red]The party is now full.[/red]"])
      else
        ({ ps with parties := dictSet leader (members ++ [character_id]) ps.parties },
         ["[yellow]You joined the party.[/yellow]"])
    | _, _ => (ps, ["[red]The inviter is no longer online.[/red]"])

/-- `PartyManager.decline`. -/
def decline (ps : PartyState) (w : WorldState) (character_id : Int) :
    PartyState × List String :=
  match ps.invites.lookup character_id with
  | none => (ps, ["[red]You have no pending party invite.[/red]"])
  | some _ =>
    ({ ps with invites := dictPop character_id ps.invites }, ["[dim]Invite declined.[/dim]"])

/-- `PartyManager.leave_party`.  `members.remove(cid)` mutates the stored
list in place; the later branches then rebind / delete dict entries. -/
def leave_party (ps : PartyState) (w : WorldState) (character_id : Int) :
    PartyState × List String :=
  match find_party_leader ps character_id with
  | none => (ps, ["[red]You are not in a party.[/red]"])
  | some leader =>
    let members := ((ps.parties.lookup leader).getD []).erase character_id
    let ps := { ps with parties := dictSet leader members ps.parties }
    let ps :=
      if character_id == leader then
        if 2 ≤ members.length then
          let new_leader := members.headD 0
          { ps with parties := dictPop leader (dictSet new_leader members ps.parties) }
        else if members.length == 1 then
          { ps with parties := dictPop leader ps.parties }
        else ps
      else if members.length == 1 then
        { ps with parties := dictPop leader ps.parties }
      else ps
    (ps, ["[dim]You left the party.[/dim]"])

/-- `PartyManager.remove_player` (disconnect cleanup).  The source returns
early when the character is in no party — before the invite pop. -/
def remove_player (ps : PartyState) (w : WorldState) (character_id : Int) : PartyState :=
  match find_party_leader ps character_id with
  | none => ps
  | some _ =>
    let ps := { ps with invites := dictPop character_id ps.invites }
    (leave_party ps w character_id).1

end PartyManager

/- ------------------------------------------------------------------ -/
/- Combat randomness parameters                                        -/
/- ------------------------------------------------------------------ -/

/-- Outcome of the two random draws inside `_calculate_damage`: whether
`random.random() > hit_chance` failed (a hit), and `random.randint(-2, 2)`. -/
structure AttackRoll where
  hit : Bool
  variance : Int
deriving DecidableEq

/-- Random draws an NPC turn consumes: the `random.choice` enemy index and
the attack rolls. -/
structure NpcRoll where
  choice : Nat
  roll : AttackRoll
deriving DecidableEq

/- ------------------------------------------------------------------ -/
/- Positional view of the current combatant                            -/
/- ------------------------------------------------------------------ -/

/-- Indices (from `i`) of the non-knocked-out combatants: the positional
counterpart of `get_active_combatants`, used to model that the source holds
the current combatant by reference. -/
def activePositionsAux : Nat → List Combatant → List Nat
  | _, [] => []
  | i, c :: cs =>
    if !c.is_knocked_out then i :: activePositionsAux (i + 1) cs
    else activePositionsAux (i + 1) cs

namespace CombatInstance

/-- Positions of the living combatants inside `combatants`. -/
def active_positions (c : CombatInstance) : List Nat :=
  activePositionsAux 0 c.combatants

/-- The `combatants`-index of `current_combatant` (the object the source
aliases). -/
def current_pos (c : CombatInstance) : Option Nat :=
  if c.combatants.isEmpty then none
  else
    let ap := c.active_positions
    if ap.isEmpty then none
    else ap[c.current_turn_index % ap.length]?

end CombatInstance

namespace CombatManager

/-- `CombatManager._get_weapon`: the equipped weapon or `None` (fists). -/
def get_weapon (character : Character) : Option Weapon :=
  character.equipped_weapon

/-- `CombatManager._calculate_damage`, with the two random draws passed in.
Returns `(damage, did_hit)`.  `Int./` is floor division, like Python `//`. -/
def calculate_damage (attacker defender : Combatant) (roll : AttackRoll) : Int × Bool :=
  if !roll.hit then (0, false)
  else
    let base := attacker.character.base_attack
    let bonus := match get_weapon attacker.character with
      | some w => w.attackBonus
      | none => 0
    let damage := max 1 (base + bonus + roll.variance)
    let damage := if defender.is_defending then max 1 (damage / 2) else damage
    (damage, true)

/-- Body of the `_recover` coroutine inside
`CombatManager._start_knockout_recovery`: restore 1 hp, clear both
knockout flags. -/
def recover_effect (c : Combatant) : Combatant :=
  { c with character := { c.character with hp := 1, is_knocked_out := false },
           is_knocked_out := false }

/-- `CombatManager._start_knockout_recovery`.  With a running loop it only
schedules `recover_effect` (no immediate state change here); without one
(`RuntimeError`) it restores the character immediately — note the fallback
touches `character.hp` and `character.is_knocked_out` only. -/
def start_knockout_recovery (loop : Bool) (c : Combatant) : Combatant :=
  if loop then c
  else { c with character := { c.character with hp := 1, is_knocked_out := false } }

/-- `CombatManager._cancel_timer`: a pending (not done) task is cancelled
and the handle cleared. -/
def cancel_timer (c : CombatInstance) : CombatInstance :=
  if c.turn_timer_task == some false then { c with turn_timer_task := none } else c

/-- `CombatManager._start_timer`: cancel, then schedule a fresh 30-second
task — unless no event loop is running (`RuntimeError`: skip timer). -/
def start_timer (loop : Bool) (c : CombatInstance) : CombatInstance :=
  let c := cancel_timer c
  if loop then { c with turn_timer_task := some false } else c

/-- `CombatManager._remove_combatant`, positionally: `j` is the
`combatants`-index of the reference being removed.  `active.index` finds
its position among the living (the `ValueError` branch fires when it is
knocked out), then the entry is removed and its id unregistered. -/
def remove_combatant_at (j : Nat) (combat : CombatInstance) : CombatInstance :=
  let koAtJ := match combat.combatants[j]? with
    | some c => c.is_knocked_out
    | none => true
  let idx :=
    if koAtJ then combat.current_turn_index
    else
      let aidx := ((combat.combatants.take j).filter (fun x => !x.is_knocked_out)).length
      if aidx < combat.current_turn_index then combat.current_turn_index - 1
      else combat.current_turn_index
  { combat with current_turn_index := idx, combatants := combat.combatants.eraseIdx j }

/-- Enemy resolution of `_handle_attack`, positionally: the living
combatants of the other team, each with its `combatants`-index. -/
def enemy_entries (combat : CombatInstance) (attacker : Combatant) : List (Nat × Combatant) :=
  combat.combatants.enum.filter (fun p => p.2.team != attacker.team && !p.2.is_knocked_out)

/-- Python `str.lower()` (the source compares names case-insensitively). -/
def str_lower (s : String) : String :=
  String.mk (s.toList.map Char.toLower)

/-- Python `str.strip()`: drop leading and trailing whitespace. -/
def str_strip (s : String) : String :=
  String.mk (((s.toList.dropWhile Char.isWhitespace).reverse.dropWhile
    Char.isWhitespace).reverse)

/-- Target resolution inside `_handle_attack`: a given name must match a
living enemy case-insensitively; no name defaults to the first enemy. -/
def resolve_target (enemies : List (Nat × Combatant)) (target_name : String) :
    Option (Nat × Combatant) :=
  if target_name != "" then
    enemies.find? (fun p => str_lower p.2.character.name == str_lower target_name)
  else enemies.head?

/-- Damage application and knockout branch of `_handle_attack` on the hit
defender: subtract damage, clamp at 0, set both knockout flags and (for
players) start knockout recovery. -/
def hit_defender (loop : Bool) (defender : Combatant) (damage : Int) : Combatant :=
  let defender :=
    { defender with character := { defender.character with hp := defender.character.hp - damage } }
  if defender.character.hp ≤ 0 then
    let d := { defender with
      character := { defender.character with hp := 0, is_knocked_out := true },
      is_knocked_out := true }
    if !d.is_npc then start_knockout_recovery loop d else d
  else defender

/-- State mutation of `_handle_attack` once the defender is resolved: roll
damage, on a hit mutate the defender in place, then clear the attacker's
own defending flag (hit or miss). -/
def attack_apply (loop : Bool) (attackerPos : Nat) (entry : Nat × Combatant)
    (roll : AttackRoll) (attacker : Combatant) (combat : CombatInstance) : CombatInstance :=
  let dmg := calculate_damage attacker entry.2 roll
  let combat :=
    match dmg.2 with
    | true => { combat with
        combatants := updateAt entry.1 (fun _ => hit_defender loop entry.2 dmg.1) combat.combatants }
    | false => combat
  { combat with
    combatants := updateAt attackerPos (fun a => { a with is_defending := false }) combat.combatants }

/-- Non-recursive core of `CombatManager._handle_attack` (everything before
the final `_advance_turn` call): resolve the target, apply damage, knockout
and the attacker's defending reset, and check `is_over`.  `Sum.inl` is an
early return (with the combat result and the player messages); `Sum.inr`
is the not-over combat state from which the turn must advance. -/
def attack_resolve (loop : Bool) (attackerPos : Nat) (target_name : String)
    (roll : AttackRoll) (combat : CombatInstance) :
    (Option CombatInstance × List String) ⊕ (CombatInstance × List String) :=
  match combat.combatants[attackerPos]? with
  | none => Sum.inl (some combat, [])
  | some attacker =>
    match (enemy_entries combat attacker).isEmpty with
    | true => Sum.inl (none, ["[dim]No enemies remain.[/dim]"])
    | false =>
      match resolve_target (enemy_entries combat attacker) target_name with
      | none =>
        Sum.inl (some combat, ["[red]" ++ target_name ++ " is not a valid target.[/red]"])
      | some entry =>
        match (attack_apply loop attackerPos entry roll attacker combat).is_over with
        | true => Sum.inl (none, [])
        | false => Sum.inr (attack_apply loop attackerPos entry roll attacker combat, [])

/-- Index-and-round part of `CombatManager._advance_turn` (everything
before its `_start_turn` call); `none` is the empty-active `_end_combat`
branch. -/
def advance_core (combat : CombatInstance) : Option CombatInstance :=
  let active := combat.get_active_combatants
  match active.isEmpty with
  | true => none
  | false =>
    let idx := (combat.current_turn_index + 1) % active.length
    let combat := { combat with current_turn_index := idx }
    match idx == 0 with
    | true => some { combat with round_number := combat.round_number + 1 }
    | false => some combat

/-- `CombatManager._start_turn`, fuelled: NPC turns run
`_npc_take_turn` → `_handle_attack` → `_advance_turn` synchronously, which
recurses back here; player turns start the 30-second timer.  `none` is
`_end_combat`; exhausted fuel (or an exhausted NPC roll stream) returns the
state reached so far. -/
def start_turn : Nat → Bool → List NpcRoll → CombatInstance → Option CombatInstance
  | 0, _, _, combat => some combat
  | fuel + 1, loop, rng, combat =>
    match combat.current_pos with
    | none => none
    | some pos =>
      match combat.combatants[pos]? with
      | none => none
      | some cur =>
        match cur.is_npc with
        | true =>
          match rng with
          | [] => some combat
          | r :: rest =>
            let enemies := combat.get_enemies cur
            match enemies.isEmpty with
            | true => some combat
            | false =>
              match enemies[r.choice % enemies.length]? with
              | none => some combat
              | some target =>
                match attack_resolve loop pos target.character.name r.roll combat with
                | Sum.inl res => res.1
                | Sum.inr res =>
                  match advance_core res.1 with
                  | none => none
                  | some combat' => start_turn fuel loop rest combat'
        | false => some (start_timer loop combat)

/-- `CombatManager._advance_turn`: move to the next active combatant, then
begin that turn. -/
def advance_turn (fuel : Nat) (loop : Bool) (rng : List NpcRoll)
    (combat : CombatInstance) : Option CombatInstance :=
  match advance_core combat with
  | none => none
  | some combat' => start_turn fuel loop rng combat'

/-- `CombatManager._handle_attack`: resolve the attack, then either end
combat or advance the turn. -/
def handle_attack (fuel : Nat) (loop : Bool) (attackerPos : Nat) (target_name : String)
    (roll : AttackRoll) (rng : List NpcRoll) (combat : CombatInstance) :
    Option CombatInstance × List String :=
  match attack_resolve loop attackerPos target_name roll combat with
  | Sum.inl res => res
  | Sum.inr res => (advance_turn fuel loop rng res.1, res.2)

/-- `CombatManager._handle_defend`: set the defending flag, end or
advance. -/
def handle_defend (fuel : Nat) (loop : Bool) (pos : Nat) (rng : List NpcRoll)
    (combat : CombatInstance) : Option CombatInstance × List String :=
  let combat := { combat with
    combatants := updateAt pos (fun x => { x with is_defending := true }) combat.combatants }
  match combat.is_over with
  | true => (none, [])
  | false => (advance_turn fuel loop rng combat, [])

/-- `CombatManager._handle_flee` with the 50% roll passed in: on success
remove the combatant (freeing its id) and end or advance; on failure clear
defending and advance regardless. -/
def handle_flee (fuel : Nat) (loop : Bool) (pos : Nat) (success : Bool)
    (rng : List NpcRoll) (combat : CombatInstance) :
    Option CombatInstance × List String :=
  match success with
  | true =>
    let combat := remove_combatant_at pos combat
    match combat.is_over with
    | true => (none, ["[dim]You escaped![/dim]"])
    | false => (advance_turn fuel loop rng combat, ["[dim]You escaped![/dim]"])
  | false =>
    let combat := { combat with
      combatants := updateAt pos (fun x => { x with is_defending := false }) combat.combatants }
    (advance_turn fuel loop rng combat, [])

/-- Python `cmd.split(None, 1)`: first whitespace-delimited token and the
remainder with leading whitespace stripped. -/
def splitVerb (cmd : String) : String × String :=
  let cs := cmd.toList
  let tok := cs.takeWhile (fun ch => !ch.isWhitespace)
  let rest := (cs.dropWhile (fun ch => !ch.isWhitespace)).dropWhile (fun ch => ch.isWhitespace)
  (String.mk tok, String.mk rest)

/-- `CombatManager.handle_combat_input` once the instance for the character
is resolved (the `active_combats` lookup lives in `handle_input`): turn
check, timer cancel, verb dispatch; an unrecognized verb returns the help
hint. -/
def handle_combat_input (fuel : Nat) (loop : Bool) (character_id : Int)
    (raw_input : String) (roll : AttackRoll) (flee_roll : Bool) (rng : List NpcRoll)
    (combat : CombatInstance) : Option CombatInstance × List String :=
  match combat.current_combatant with
  | none => (some combat, ["[dim]Not your turn.[/dim]"])
  | some current =>
    match current.character_id != character_id with
    | true => (some combat, ["[dim]Not your turn.[/dim]"])
    | false =>
      let combat := cancel_timer combat
      let pos := combat.current_pos.getD 0
      let cmd := str_lower (str_strip raw_input)
      let parts := splitVerb cmd
      let action := parts.1
      let arg := parts.2
      if action == "attack" || action == "atk" || action == "a" then
        handle_attack fuel loop pos arg roll rng combat
      else if action == "defend" || action == "def" || action == "d" then
        handle_defend fuel loop pos rng combat
      else if action == "flee" || action == "run" || action == "f" then
        handle_flee fuel loop pos flee_roll rng combat
      else
        (some combat,
         ["[yellow]Combat actions: [bold]attack[/bold] [target], [bold]defend[/bold], [bold]flee[/bold][/yellow]"])

/-- `CombatManager._on_turn_timeout`: a stale timer (current combatant
changed) is a no-op; otherwise clear defending and advance. -/
def on_turn_timeout (fuel : Nat) (loop : Bool) (character_id : Int)
    (rng : List NpcRoll) (combat : CombatInstance) : Option CombatInstance :=
  match combat.current_combatant with
  | none => some combat
  | some current =>
    match current.character_id == character_id with
    | true =>
      let pos := combat.current_pos.getD 0
      let combat := { combat with
        combatants := updateAt pos (fun x => { x with is_defending := false }) combat.combatants }
      advance_turn fuel loop rng combat
    | false => some combat

/-- `CombatManager.remove_player` acting on the instance the character maps
to: mark the combatant knocked out, remove it (the index adjustment cannot
fire since it is knocked out by then), end the combat if that resolves
it. -/
def remove_player_inst (character_id : Int) (combat : CombatInstance) :
    Option CombatInstance :=
  let combat :=
    match combat.combatants.findIdx? (fun c => c.character_id == character_id) with
    | some j => remove_combatant_at j
        { combat with
          combatants := updateAt j (fun c => { c with is_knocked_out := true }) combat.combatants }
    | none => combat
  match combat.is_over with
  | true => none
  | false => some combat

/- -------------------------------------------------------------- -/
/- Manager registry level                                          -/
/- -------------------------------------------------------------- -/

/-- The live combat instances.  The source's `active_combats` dict
(character_id → CombatInstance) is derived from it: every combatant of a
live instance is registered to that instance, which is exactly how
`start_combat`, `_remove_combatant` and `_end_combat` keep the dict in
sync. -/
abbrev ManagerState := List CombatInstance

/-- `CombatManager.is_in_combat`: the character id is registered. -/
def is_in_combat (s : ManagerState) (character_id : Int) : Bool :=
  s.any (fun inst => inst.combatants.any (fun c => c.character_id == character_id))

/-- `self.active_combats.get(character_id)` as a registry index. -/
def find_combat_idx (s : ManagerState) (character_id : Int) : Option Nat :=
  s.findIdx? (fun inst => inst.combatants.any (fun c => c.character_id == character_id))

/-- Write a per-instance result back: `none` (combat ended, all ids popped)
drops the instance from the registry. -/
def apply_at (s : ManagerState) (i : Nat) (res : Option CombatInstance) : ManagerState :=
  match res with
  | some inst => s.set i inst
  | none => s.eraseIdx i

/-- `CombatManager.handle_combat_input`, registry level. -/
def handle_input (s : ManagerState) (fuel : Nat) (loop : Bool) (character_id : Int)
    (raw : String) (roll : AttackRoll) (flee_roll : Bool) (rng : List NpcRoll) :
    ManagerState × List String :=
  match find_combat_idx s character_id with
  | none => (s, ["[red]You are not in combat.[/red]"])
  | some i =>
    match s[i]? with
    | none => (s, [])
    | some inst =>
      let r := handle_combat_input fuel loop character_id raw roll flee_roll rng inst
      (apply_at s i r.1, r.2)

/-- A scheduled turn timer firing against the `i`-th live instance. -/
def timeout_fire (s : ManagerState) (i : Nat) (fuel : Nat) (loop : Bool)
    (character_id : Int) (rng : List NpcRoll) : ManagerState :=
  match s[i]? with
  | none => s
  | some inst => apply_at s i (on_turn_timeout fuel loop character_id rng inst)

/-- `CombatManager.remove_player` (disconnect cleanup), registry level. -/
def remove_player (s : ManagerState) (character_id : Int) : ManagerState :=
  match find_combat_idx s character_id with
  | none => s
  | some i =>
    match s[i]? with
    | none => s
    | some inst => apply_at s i (remove_player_inst character_id inst)

/-- A scheduled knockout-recovery timer firing for combatant `j` of the
`i`-th live instance. -/
def recovery_fire (s : ManagerState) (i j : Nat) : ManagerState :=
  match s[i]? with
  | none => s
  | some inst => s.set i { inst with combatants := updateAt j recover_effect inst.combatants }

/-- The combat target as `start_combat` sees it after the
`object_type()` test: a player (with the character id recovered by the
session-identity scan) or an NPC with its derived id. -/
inductive CombatTarget where
  | player (target_id : Int)
  | npc (npc_id : Int) (npc : Character)

/-- Team-building loops of `start_combat`: for each id, skip those already
in combat, look up the session, build a fresh Combatant of the team. -/
def build_team (s : ManagerState) (sessions : List (Int × Character)) (ids : List Int)
    (team : Int) : List Combatant :=
  ids.filterMap (fun aid =>
    if is_in_combat s aid then none
    else (sessions.lookup aid).map (fun ch =>
      { character_id := aid, character := ch, team := team : Combatant }))

/-- `CombatManager._roll_initiative` assignment loop: initiative =
d20 roll + `stamina // 10` (`Int./` is floor division).  The d20 stream
enters as `roll`. -/
def roll_initiative (roll : Nat → Int) : Nat → List Combatant → List Combatant
  | _, [] => []
  | i, c :: cs =>
    { c with initiative := roll i + c.character.stamina / 10 } ::
      roll_initiative roll (i + 1) cs

/-- One step of the stable descending sort: place `c` after every strictly
greater initiative and before the first equal-or-smaller one. -/
def insert_desc (c : Combatant) : List Combatant → List Combatant
  | [] => [c]
  | x :: xs => if c.initiative < x.initiative then x :: insert_desc c xs else c :: x :: xs

/-- The sort of `_roll_initiative` (`combat.combatants.sort(key=initiative,
reverse=True)`): a stable descending sort — every stable sort computes this
same list, so a structural insertion sort is used. -/
def sort_desc : List Combatant → List Combatant
  | [] => []
  | c :: cs => insert_desc c (sort_desc cs)

/-- Registration tail of `CombatManager.start_combat`: the fewer-than-2
check, `_roll_initiative` (the combatants are then sorted descending —
`list.sort` with `reverse=True`, a stable sort), the instance construction,
the registration of every combatant id and the first `_start_turn` (which
may itself already end the combat through NPC turns). -/
def start_finish (s : ManagerState) (room : String) (roll : Nat → Int) (loop : Bool)
    (fuel : Nat) (rng : List NpcRoll) (cs : List Combatant) : ManagerState × List String :=
  if cs.length < 2 then (s, ["[red]Cannot start combat.[/red]"])
  else
    let sorted := sort_desc (roll_initiative roll 0 cs)
    let inst : CombatInstance :=
      { combatants := sorted, current_turn_index := 0, room := room,
        turn_timer_task := none, round_number := 1 }
    match start_turn fuel loop rng inst with
    | some inst' => (inst' :: s, [])
    | none => (s, [])

/-- `CombatManager.start_combat` proper: reject an in-combat initiator or
target, assemble the two teams, then hand off to `start_finish`. -/
def start_combat (s : ManagerState) (attacker_id : Int)
    (sessions : List (Int × Character)) (attacker_party defender_party : List Int)
    (target : CombatTarget) (room : String) (roll : Nat → Int) (loop : Bool)
    (fuel : Nat) (rng : List NpcRoll) : ManagerState × List String :=
  match sessions.lookup attacker_id with
  | none => (s, ["[red]Error starting combat.[/red]"])
  | some _ =>
    match is_in_combat s attacker_id with
    | true => (s, ["[red]You are already in combat![/red]"])
    | false =>
      let attacker_ids := if attacker_party.contains attacker_id then attacker_party
                          else attacker_id :: attacker_party
      let team0 := build_team s sessions attacker_ids 0
      match target with
      | .player target_id =>
        match is_in_combat s target_id with
        | true => (s, ["[red]Target is already in combat![/red]"])
        | false =>
          let defender_ids := if defender_party.contains target_id then defender_party
                              else target_id :: defender_party
          start_finish s room roll loop fuel rng (team0 ++ build_team s sessions defender_ids 1)
      | .npc npc_id ch =>
        start_finish s room roll loop fuel rng (team0 ++
          [{ character_id := npc_id, character := ch, team := 1, is_npc := true }])

/-- One externally triggered operation of the combat manager, with every
random draw, environment fact and fuel bound quantified. -/
inductive Step : ManagerState → ManagerState → Prop where
  | start (s : ManagerState) (attacker_id : Int) (sessions : List (Int × Character))
      (ap dp : List Int) (target : CombatTarget) (room : String) (roll : Nat → Int)
      (loop : Bool) (fuel : Nat) (rng : List NpcRoll) :
      Step s (start_combat s attacker_id sessions ap dp target room roll loop fuel rng).1
  | input (s : ManagerState) (fuel : Nat) (loop : Bool) (character_id : Int)
      (raw : String) (roll : AttackRoll) (flee : Bool) (rng : List NpcRoll) :
      Step s (handle_input s fuel loop character_id raw roll flee rng).1
  | timeout (s : ManagerState) (i fuel : Nat) (loop : Bool) (character_id : Int)
      (rng : List NpcRoll) :
      Step s (timeout_fire s i fuel loop character_id rng)
  | disconnect (s : ManagerState) (character_id : Int) :
      Step s (remove_player s character_id)
  | recovery (s : ManagerState) (i j : Nat) :
      Step s (recovery_fire s i j)

/-- Registry states reachable from server start (no combat). -/
inductive Reachable : ManagerState → Prop where
  | init : Reachable []
  | step {s s' : ManagerState} : Reachable s → Step s s' → Reachable s'

/-- Every live (registered) instance still has a living combatant. -/
def live_invariant (s : ManagerState) : Prop :=
  ∀ inst ∈ s, inst.get_active_combatants ≠ []

end CombatManager

end MUD

namespace MUD

/- ================================================================== -/
/- Theorems                                                            -/
/- ================================================================== -/

/- ------------------------------------------------------------------ -/
/- Claim C4                                                            -/
/- ------------------------------------------------------------------ -/

/-- C4: for every CombatInstance, `is_over()` returns true iff the set of
team numbers of its non-knocked-out combatants has at most one distinct
element. -/
theorem is_over_iff_at_most_one_team (c : CombatInstance) :
    c.is_over = true ↔
      ((c.combatants.filter (fun x => !x.is_knocked_out)).map
        (fun x => x.team)).toFinset.card ≤ 1 := by
  simp [CombatInstance.is_over, List.card_toFinset]

/- ------------------------------------------------------------------ -/
/- Claim C5                                                            -/
/- ------------------------------------------------------------------ -/

/-- C5: on a successful hit the damage is `max 1 (base + bonus + variance)`
against a non-defending target and `max 1 (that value / 2)` against a
defending one; hit damage is always at least 1; and with the same attacker,
weapon and rolls, damage against a defending target never exceeds damage
against a non-defending one. -/
theorem calculate_damage_spec (attacker defender : Combatant) (v : Int)
    (hv1 : -2 ≤ v) (hv2 : v ≤ 2) :
    (CombatManager.calculate_damage attacker defender ⟨true, v⟩).2 = true
    ∧ (defender.is_defending = false →
        (CombatManager.calculate_damage attacker defender ⟨true, v⟩).1 =
          max 1 (attacker.character.base_attack +
            (match CombatManager.get_weapon attacker.character with
              | some w => w.attackBonus
              | none => 0) + v))
    ∧ (defender.is_defending = true →
        (CombatManager.calculate_damage attacker defender ⟨true, v⟩).1 =
          max 1 ((max 1 (attacker.character.base_attack +
            (match CombatManager.get_weapon attacker.character with
              | some w => w.attackBonus
              | none => 0) + v)) / 2))
    ∧ 1 ≤ (CombatManager.calculate_damage attacker defender ⟨true, v⟩).1
    ∧ (CombatManager.calculate_damage attacker
          { defender with is_defending := true } ⟨true, v⟩).1 ≤
        (CombatManager.calculate_damage attacker
          { defender with is_defending := false } ⟨true, v⟩).1 := by
  refine ⟨rfl, fun hd => ?_, fun hd => ?_, ?_, ?_⟩
  · simp [CombatManager.calculate_damage, hd]
  · simp [CombatManager.calculate_damage, hd]
  · by_cases hd : defender.is_defending <;>
      simp [CombatManager.calculate_damage, hd] <;> omega
  · simp only [CombatManager.calculate_damage, Bool.not_true, Bool.false_eq_true,
      if_false, if_true]
    omega

/-- Witness for C5 at a concrete attacker, defender and variance roll. -/
theorem calculate_damage_spec_witness :
    (CombatManager.calculate_damage
        ⟨1, ⟨"A", 100, 100, 10, false, some ⟨"Sword", 5⟩⟩, 0, false, false, false, 0⟩
        ⟨2, ⟨"B", 100, 100, 10, false, none⟩, 1, true, false, false, 0⟩
        ⟨true, 2⟩).1 = 8 ∧
    (1 : Int) ≤ (CombatManager.calculate_damage
        ⟨1, ⟨"A", 100, 100, 10, false, some ⟨"Sword", 5⟩⟩, 0, false, false, false, 0⟩
        ⟨2, ⟨"B", 100, 100, 10, false, none⟩, 1, true, false, false, 0⟩
        ⟨true, 2⟩).1 := by
  have h := calculate_damage_spec
    ⟨1, ⟨"A", 100, 100, 10, false, some ⟨"Sword", 5⟩⟩, 0, false, false, false, 0⟩
    ⟨2, ⟨"B", 100, 100, 10, false, none⟩, 1, true, false, false, 0⟩
    2 (by decide) (by decide)
  refine ⟨?_, h.2.2.2.1⟩
  have := h.2.2.1 rfl
  simpa using this

/- ------------------------------------------------------------------ -/
/- Claim C7                                                            -/
/- ------------------------------------------------------------------ -/

/-- C7: at a concrete knocked-out player combatant, the no-scheduler
fallback of `_start_knockout_recovery` restores hp to 1 and clears the
character-level flag but leaves the Combatant-level knockout flag set,
whereas the scheduled 60-second `recover_effect` clears it; both are
idempotent. -/
theorem knockout_recovery_sync_keeps_combatant_flag :
    (CombatManager.start_knockout_recovery false
        ⟨1, ⟨"Hero", 0, 100, 10, true, none⟩, 0, false, true, false, 0⟩).character.hp = 1
    ∧ (CombatManager.start_knockout_recovery false
        ⟨1, ⟨"Hero", 0, 100, 10, true, none⟩, 0, false, true, false, 0⟩).character.is_knocked_out = false
    ∧ (CombatManager.start_knockout_recovery false
        ⟨1, ⟨"Hero", 0, 100, 10, true, none⟩, 0, false, true, false, 0⟩).is_knocked_out = true
    ∧ (CombatManager.recover_effect
        ⟨1, ⟨"Hero", 0, 100, 10, true, none⟩, 0, false, true, false, 0⟩).is_knocked_out = false
    ∧ (CombatManager.recover_effect
        ⟨1, ⟨"Hero", 0, 100, 10, true, none⟩, 0, false, true, false, 0⟩).character.hp = 1
    ∧ CombatManager.recover_effect (CombatManager.recover_effect
        ⟨1, ⟨"Hero", 0, 100, 10, true, none⟩, 0, false, true, false, 0⟩) =
      CombatManager.recover_effect
        ⟨1, ⟨"Hero", 0, 100, 10, true, none⟩, 0, false, true, false, 0⟩
    ∧ CombatManager.start_knockout_recovery false
        (CombatManager.start_knockout_recovery false
          ⟨1, ⟨"Hero", 0, 100, 10, true, none⟩, 0, false, true, false, 0⟩) =
      CombatManager.start_knockout_recovery false
        ⟨1, ⟨"Hero", 0, 100, 10, true, none⟩, 0, false, true, false, 0⟩ := by
  refine ⟨rfl, rfl, rfl, rfl, rfl, rfl, rfl⟩

/- ------------------------------------------------------------------ -/
/- Liveness invariant of the combat registry (towards C2)              -/
/- ------------------------------------------------------------------ -/

/-- A combat that is not over still has a living combatant. -/
theorem not_over_active_ne_nil (c : CombatInstance) (h : c.is_over = false) :
    c.get_active_combatants ≠ [] := by
  intro hnil
  unfold CombatInstance.is_over at h
  unfold CombatInstance.get_active_combatants at hnil
  rw [hnil] at h
  simp at h

/-- Timer bookkeeping never touches the combatant list. -/
theorem cancel_timer_combatants (c : CombatInstance) :
    (CombatManager.cancel_timer c).combatants = c.combatants := by
  unfold CombatManager.cancel_timer
  split <;> rfl

/-- Timer bookkeeping never touches the combatant list. -/
theorem start_timer_combatants (loop : Bool) (c : CombatInstance) :
    (CombatManager.start_timer loop c).combatants = c.combatants := by
  unfold CombatManager.start_timer
  split <;> simp [cancel_timer_combatants]

/-- Timer bookkeeping never touches the active-combatant list. -/
theorem get_active_cancel_timer (c : CombatInstance) :
    (CombatManager.cancel_timer c).get_active_combatants = c.get_active_combatants := by
  simp [CombatInstance.get_active_combatants, cancel_timer_combatants]

/-- Timer bookkeeping never touches the active-combatant list. -/
theorem get_active_start_timer (loop : Bool) (c : CombatInstance) :
    (CombatManager.start_timer loop c).get_active_combatants = c.get_active_combatants := by
  simp [CombatInstance.get_active_combatants, start_timer_combatants]

/-- Early (`Sum.inl`) exits of the attack resolution that keep a combat
alive leave it unchanged, so they preserve liveness. -/
theorem attack_resolve_inl_inv (loop : Bool) (pos : Nat) (tn : String)
    (roll : AttackRoll) (combat : CombatInstance)
    (res : Option CombatInstance × List String)
    (h : CombatManager.attack_resolve loop pos tn roll combat = Sum.inl res)
    (c' : CombatInstance) (hc : res.1 = some c')
    (hInv : combat.get_active_combatants ≠ []) : c'.get_active_combatants ≠ [] := by
  unfold CombatManager.attack_resolve at h
  cases hA : combat.combatants[pos]? with
  | none =>
    simp only [hA] at h
    cases h
    simp only at hc
    cases hc
    exact hInv
  | some attacker =>
    simp only [hA] at h
    cases hE : (CombatManager.enemy_entries combat attacker).isEmpty with
    | true =>
      simp only [hE] at h
      cases h
      simp only at hc
      cases hc
    | false =>
      simp only [hE] at h
      cases hT : CombatManager.resolve_target (CombatManager.enemy_entries combat attacker) tn with
      | none =>
        simp only [hT] at h
        cases h
        simp only at hc
        cases hc
        exact hInv
      | some entry =>
        simp only [hT] at h
        cases hO : (CombatManager.attack_apply loop pos entry roll attacker combat).is_over with
        | true =>
          simp only [hO] at h
          cases h
          simp only at hc
          cases hc
        | false =>
          simp only [hO] at h
          cases h

/-- The `Sum.inr` exit of the attack resolution carries a combat that is
not over. -/
theorem attack_resolve_inr_not_over (loop : Bool) (pos : Nat) (tn : String)
    (roll : AttackRoll) (combat : CombatInstance)
    (res : CombatInstance × List String)
    (h : CombatManager.attack_resolve loop pos tn roll combat = Sum.inr res) :
    res.1.is_over = false := by
  unfold CombatManager.attack_resolve at h
  cases hA : combat.combatants[pos]? with
  | none =>
    simp only [hA] at h
    cases h
  | some attacker =>
    simp only [hA] at h
    cases hE : (CombatManager.enemy_entries combat attacker).isEmpty with
    | true =>
      simp only [hE] at h
      cases h
    | false =>
      simp only [hE] at h
      cases hT : CombatManager.resolve_target (CombatManager.enemy_entries combat attacker) tn with
      | none =>
        simp only [hT] at h
        cases h
      | some entry =>
        simp only [hT] at h
        cases hO : (CombatManager.attack_apply loop pos entry roll attacker combat).is_over with
        | true =>
          simp only [hO] at h
          cases h
        | false =>
          simp only [hO] at h
          cases h
          exact hO

/-- The index-advance core only succeeds on a combat with living
combatants, and it never touches the combatant list. -/
theorem advance_core_inv (combat c' : CombatInstance)
    (h : CombatManager.advance_core combat = some c') :
    c'.get_active_combatants ≠ [] := by
  unfold CombatManager.advance_core at h
  cases hE : combat.get_active_combatants.isEmpty with
  | true =>
    simp only [hE] at h
    cases h
  | false =>
    simp only [hE] at h
    have hact : combat.get_active_combatants ≠ [] := by
      intro hnil
      rw [hnil] at hE
      simp at hE
    cases hI : (combat.current_turn_index + 1) % combat.get_active_combatants.length == 0 with
    | true =>
      simp only [hI] at h
      cases h
      simpa [CombatInstance.get_active_combatants] using hact
    | false =>
      simp only [hI] at h
      cases h
      simpa [CombatInstance.get_active_combatants] using hact

/-- `_start_turn` preserves liveness: any combat it leaves registered still
has a living combatant. -/
theorem start_turn_inv : ∀ (fuel : Nat) (loop : Bool) (rng : List NpcRoll)
    (combat c' : CombatInstance), combat.get_active_combatants ≠ [] →
    CombatManager.start_turn fuel loop rng combat = some c' →
    c'.get_active_combatants ≠ [] := by
  intro fuel
  induction fuel with
  | zero =>
    intro loop rng combat c' hInv h
    unfold CombatManager.start_turn at h
    cases h
    exact hInv
  | succ n ih =>
    intro loop rng combat c' hInv h
    unfold CombatManager.start_turn at h
    cases hP : combat.current_pos with
    | none =>
      simp only [hP] at h
      cases h
    | some pos =>
      simp only [hP] at h
      cases hC : combat.combatants[pos]? with
      | none =>
        simp only [hC] at h
        cases h
      | some cur =>
        simp only [hC] at h
        cases hN : cur.is_npc with
        | false =>
          simp only [hN] at h
          cases h
          simpa [CombatInstance.get_active_combatants, start_timer_combatants] using hInv
        | true =>
          simp only [hN] at h
          cases rng with
          | nil =>
            simp only at h
            cases h
            exact hInv
          | cons r rest =>
            simp only at h
            cases hE : (combat.get_enemies cur).isEmpty with
            | true =>
              simp only [hE] at h
              cases h
              exact hInv
            | false =>
              simp only [hE] at h
              cases hG : (combat.get_enemies cur)[r.choice % (combat.get_enemies cur).length]? with
              | none =>
                simp only [hG] at h
                cases h
                exact hInv
              | some target =>
                simp only [hG] at h
                cases hR : CombatManager.attack_resolve loop pos target.character.name r.roll combat with
                | inl res =>
                  simp only [hR] at h
                  exact attack_resolve_inl_inv _ _ _ _ _ _ hR _ h hInv
                | inr res =>
                  simp only [hR] at h
                  cases hAc : CombatManager.advance_core res.1 with
                  | none =>
                    simp only [hAc] at h
                    cases h
                  | some combat2 =>
                    simp only [hAc] at h
                    exact ih _ _ _ _ (advance_core_inv _ _ hAc) h

/-- An element found by index lookup is a member of the list. -/
theorem mem_of_getElem_opt {α : Type} {l : List α} {i : Nat} {a : α}
    (h : l[i]? = some a) : a ∈ l := by
  obtain ⟨hlt, rfl⟩ := List.getElem?_eq_some.mp h
  exact List.getElem_mem hlt

/-- Updating one combatant in place without touching its knockout flag
keeps the number of living combatants. -/
theorem updateAt_filter_length (f : Combatant → Combatant)
    (hf : ∀ x, (f x).is_knocked_out = x.is_knocked_out) :
    ∀ (l : List Combatant) (i : Nat),
      ((updateAt i f l).filter (fun x => !x.is_knocked_out)).length =
        (l.filter (fun x => !x.is_knocked_out)).length := by
  intro l
  induction l with
  | nil => intro i; simp [updateAt]
  | cons x xs ih =>
    intro i
    cases i with
    | zero =>
      simp only [updateAt, List.filter_cons, hf x]
      cases hx : !x.is_knocked_out <;> simp
    | succ n =>
      simp only [updateAt, List.filter_cons]
      cases hx : !x.is_knocked_out <;> simp [ih n]

/-- Updating one combatant in place without touching its knockout flag
preserves having a living combatant. -/
theorem updateAt_filter_ne (f : Combatant → Combatant)
    (hf : ∀ x, (f x).is_knocked_out = x.is_knocked_out) (l : List Combatant) (i : Nat)
    (h : l.filter (fun x => !x.is_knocked_out) ≠ []) :
    (updateAt i f l).filter (fun x => !x.is_knocked_out) ≠ [] := by
  intro hnil
  apply h
  apply List.length_eq_zero.mp
  rw [← updateAt_filter_length f hf l i, hnil]
  rfl

/-- A fired knockout-recovery leaves the recovered combatant alive, so the
living set stays non-empty. -/
theorem updateAt_recover_ne (l : List Combatant) (i : Nat)
    (h : l.filter (fun x => !x.is_knocked_out) ≠ []) :
    (updateAt i CombatManager.recover_effect l).filter (fun x => !x.is_knocked_out) ≠ [] := by
  induction l generalizing i with
  | nil => simpa using h
  | cons x xs ih =>
    cases i with
    | zero =>
      simp [updateAt, List.filter_cons, CombatManager.recover_effect]
    | succ n =>
      simp only [updateAt, List.filter_cons]
      cases hx : !x.is_knocked_out with
      | true => simp
      | false =>
        simp only [Bool.false_eq_true, if_false]
        apply ih
        simpa [List.filter_cons, hx] using h

/-- `_advance_turn` only keeps combats with a living combatant. -/
theorem advance_turn_inv (fuel : Nat) (loop : Bool) (rng : List NpcRoll)
    (combat c' : CombatInstance)
    (h : CombatManager.advance_turn fuel loop rng combat = some c') :
    c'.get_active_combatants ≠ [] := by
  unfold CombatManager.advance_turn at h
  cases hAc : CombatManager.advance_core combat with
  | none =>
    simp only [hAc] at h
    cases h
  | some combat2 =>
    simp only [hAc] at h
    exact start_turn_inv _ _ _ _ _ (advance_core_inv _ _ hAc) h

/-- `_handle_attack` preserves liveness of the kept combat. -/
theorem handle_attack_inv (fuel : Nat) (loop : Bool) (pos : Nat) (tn : String)
    (roll : AttackRoll) (rng : List NpcRoll) (combat c' : CombatInstance)
    (hInv : combat.get_active_combatants ≠ [])
    (h : (CombatManager.handle_attack fuel loop pos tn roll rng combat).1 = some c') :
    c'.get_active_combatants ≠ [] := by
  unfold CombatManager.handle_attack at h
  cases hR : CombatManager.attack_resolve loop pos tn roll combat with
  | inl res =>
    simp only [hR] at h
    exact attack_resolve_inl_inv _ _ _ _ _ _ hR _ h hInv
  | inr res =>
    simp only [hR] at h
    exact advance_turn_inv _ _ _ _ _ h

/-- `_handle_defend` preserves liveness of the kept combat. -/
theorem handle_defend_inv (fuel : Nat) (loop : Bool) (pos : Nat) (rng : List NpcRoll)
    (combat c' : CombatInstance)
    (h : (CombatManager.handle_defend fuel loop pos rng combat).1 = some c') :
    c'.get_active_combatants ≠ [] := by
  unfold CombatManager.handle_defend at h
  simp only at h
  cases hO : ({ combat with
      combatants := updateAt pos (fun x => { x with is_defending := true }) combat.combatants
    } : CombatInstance).is_over with
  | true =>
    simp only [hO] at h
    simp at h
  | false =>
    simp only [hO] at h
    exact advance_turn_inv _ _ _ _ _ h

/-- `_handle_flee` preserves liveness of the kept combat. -/
theorem handle_flee_inv (fuel : Nat) (loop : Bool) (pos : Nat) (success : Bool)
    (rng : List NpcRoll) (combat c' : CombatInstance)
    (h : (CombatManager.handle_flee fuel loop pos success rng combat).1 = some c') :
    c'.get_active_combatants ≠ [] := by
  unfold CombatManager.handle_flee at h
  cases success with
  | true =>
    simp only at h
    cases hO : (CombatManager.remove_combatant_at pos combat).is_over with
    | true =>
      simp only [hO] at h
      simp at h
    | false =>
      simp only [hO] at h
      exact advance_turn_inv _ _ _ _ _ h
  | false =>
    simp only at h
    exact advance_turn_inv _ _ _ _ _ h

/-- `_on_turn_timeout` preserves liveness of the kept combat. -/
theorem on_turn_timeout_inv (fuel : Nat) (loop : Bool) (character_id : Int)
    (rng : List NpcRoll) (combat c' : CombatInstance)
    (hInv : combat.get_active_combatants ≠ [])
    (h : CombatManager.on_turn_timeout fuel loop character_id rng combat = some c') :
    c'.get_active_combatants ≠ [] := by
  unfold CombatManager.on_turn_timeout at h
  cases hCC : combat.current_combatant with
  | none =>
    simp only [hCC] at h
    cases h
    exact hInv
  | some current =>
    simp only [hCC] at h
    cases hEq : current.character_id == character_id with
    | false =>
      simp only [hEq] at h
      cases h
      exact hInv
    | true =>
      simp only [hEq] at h
      exact advance_turn_inv _ _ _ _ _ h

/-- `handle_combat_input` preserves liveness of the kept combat. -/
theorem handle_combat_input_inv (fuel : Nat) (loop : Bool) (character_id : Int)
    (raw : String) (roll : AttackRoll) (flee : Bool) (rng : List NpcRoll)
    (combat c' : CombatInstance)
    (hInv : combat.get_active_combatants ≠ [])
    (h : (CombatManager.handle_combat_input fuel loop character_id raw roll flee rng combat).1 =
      some c') :
    c'.get_active_combatants ≠ [] := by
  have hInvCancel : (CombatManager.cancel_timer combat).get_active_combatants ≠ [] := by
    simpa [get_active_cancel_timer] using hInv
  unfold CombatManager.handle_combat_input at h
  cases hCC : combat.current_combatant with
  | none =>
    simp only [hCC] at h
    cases h
    exact hInv
  | some current =>
    simp only [hCC] at h
    cases hNe : current.character_id != character_id with
    | true =>
      simp only [hNe] at h
      cases h
      exact hInv
    | false =>
      simp only [hNe] at h
      split at h
      · exact handle_attack_inv _ _ _ _ _ _ _ _ hInvCancel h
      · split at h
        · exact handle_defend_inv _ _ _ _ _ _ h
        · split at h
          · exact handle_flee_inv _ _ _ _ _ _ _ h
          · simp only at h
            cases h
            exact hInvCancel

/-- `remove_player` on one instance only keeps combats that are not over. -/
theorem remove_player_inst_inv (character_id : Int) (combat c' : CombatInstance)
    (h : CombatManager.remove_player_inst character_id combat = some c') :
    c'.get_active_combatants ≠ [] := by
  unfold CombatManager.remove_player_inst at h
  cases hF : combat.combatants.findIdx? (fun c => c.character_id == character_id) with
  | none =>
    simp only [hF] at h
    cases hO : combat.is_over with
    | true =>
      simp only [hO] at h
      cases h
    | false =>
      simp only [hO] at h
      cases h
      exact not_over_active_ne_nil _ hO
  | some j =>
    simp only [hF] at h
    split at h
    · cases h
    · rename_i hover
      cases h
      exact not_over_active_ne_nil _ hover

/-- Writing a per-instance result back into the registry preserves the
liveness invariant. -/
theorem apply_at_inv (s : CombatManager.ManagerState) (i : Nat)
    (res : Option CombatInstance) (hs : CombatManager.live_invariant s)
    (hres : ∀ c', res = some c' → c'.get_active_combatants ≠ []) :
    CombatManager.live_invariant (CombatManager.apply_at s i res) := by
  cases res with
  | none =>
    intro inst hmem
    simp only [CombatManager.apply_at] at hmem
    exact hs inst (List.eraseIdx_subset s i hmem)
  | some inst2 =>
    intro inst hmem
    simp only [CombatManager.apply_at] at hmem
    rcases List.mem_or_eq_of_mem_set hmem with hm | he
    · exact hs inst hm
    · rw [he]
      exact hres inst2 rfl

/-- Registry-level input handling preserves the liveness invariant. -/
theorem handle_input_inv (s : CombatManager.ManagerState) (fuel : Nat) (loop : Bool)
    (character_id : Int) (raw : String) (roll : AttackRoll) (flee : Bool)
    (rng : List NpcRoll) (hs : CombatManager.live_invariant s) :
    CombatManager.live_invariant
      (CombatManager.handle_input s fuel loop character_id raw roll flee rng).1 := by
  unfold CombatManager.handle_input
  cases hF : CombatManager.find_combat_idx s character_id with
  | none => simpa using hs
  | some i =>
    simp only [hF]
    cases hG : s[i]? with
    | none => simpa using hs
    | some inst =>
      simp only [hG]
      apply apply_at_inv _ _ _ hs
      intro c' hc'
      exact handle_combat_input_inv _ _ _ _ _ _ _ _ _
        (hs inst (mem_of_getElem_opt hG)) hc'

/-- A firing turn timer preserves the liveness invariant. -/
theorem timeout_fire_inv (s : CombatManager.ManagerState) (i fuel : Nat) (loop : Bool)
    (character_id : Int) (rng : List NpcRoll) (hs : CombatManager.live_invariant s) :
    CombatManager.live_invariant
      (CombatManager.timeout_fire s i fuel loop character_id rng) := by
  unfold CombatManager.timeout_fire
  cases hG : s[i]? with
  | none => simpa using hs
  | some inst =>
    simp only [hG]
    apply apply_at_inv _ _ _ hs
    intro c' hc'
    exact on_turn_timeout_inv _ _ _ _ _ _ (hs inst (mem_of_getElem_opt hG)) hc'

/-- Registry-level disconnect cleanup preserves the liveness invariant. -/
theorem remove_player_inv (s : CombatManager.ManagerState) (character_id : Int)
    (hs : CombatManager.live_invariant s) :
    CombatManager.live_invariant (CombatManager.remove_player s character_id) := by
  unfold CombatManager.remove_player
  cases hF : CombatManager.find_combat_idx s character_id with
  | none => simpa using hs
  | some i =>
    simp only [hF]
    cases hG : s[i]? with
    | none => simpa using hs
    | some inst =>
      simp only [hG]
      apply apply_at_inv _ _ _ hs
      intro c' hc'
      exact remove_player_inst_inv _ _ _ hc'

/-- A firing knockout-recovery timer preserves the liveness invariant. -/
theorem recovery_fire_inv (s : CombatManager.ManagerState) (i j : Nat)
    (hs : CombatManager.live_invariant s) :
    CombatManager.live_invariant (CombatManager.recovery_fire s i j) := by
  unfold CombatManager.recovery_fire
  cases hG : s[i]? with
  | none => simpa using hs
  | some inst =>
    simp only [hG]
    intro inst2 hmem
    rcases List.mem_or_eq_of_mem_set hmem with hm | he
    · exact hs inst2 hm
    · subst he
      have := hs inst (mem_of_getElem_opt hG)
      simp only [CombatInstance.get_active_combatants] at this ⊢
      exact updateAt_recover_ne _ _ this

/-- Every combatant the team-building loop produces starts alive. -/
theorem build_team_not_ko (s : CombatManager.ManagerState)
    (sessions : List (Int × Character)) (ids : List Int) (team : Int) :
    ∀ x ∈ CombatManager.build_team s sessions ids team, x.is_knocked_out = false := by
  intro x hx
  simp only [CombatManager.build_team, List.mem_filterMap] at hx
  obtain ⟨aid, _, hf⟩ := hx
  split at hf
  · cases hf
  · rcases Option.map_eq_some'.mp hf with ⟨ch, _, rfl⟩
    rfl

/-- Rolling initiative changes no knockout flag. -/
theorem roll_initiative_not_ko (roll : Nat → Int) :
    ∀ (i : Nat) (l : List Combatant), (∀ x ∈ l, x.is_knocked_out = false) →
      ∀ x ∈ CombatManager.roll_initiative roll i l, x.is_knocked_out = false := by
  intro i l
  induction l generalizing i with
  | nil =>
    intro _ x hx
    simp [CombatManager.roll_initiative] at hx
  | cons c cs ih =>
    intro hall x hx
    simp only [CombatManager.roll_initiative, List.mem_cons] at hx
    rcases hx with rfl | hx
    · exact hall c (List.mem_cons_self c cs)
    · exact ih (i + 1) (fun y hy => hall y (List.mem_cons_of_mem c hy)) x hx

/-- Rolling initiative keeps the combatant count. -/
theorem roll_initiative_length (roll : Nat → Int) :
    ∀ (i : Nat) (l : List Combatant),
      (CombatManager.roll_initiative roll i l).length = l.length := by
  intro i l
  induction l generalizing i with
  | nil => rfl
  | cons c cs ih => simp [CombatManager.roll_initiative, ih]

/-- Insertion keeps exactly the inserted element and the old ones. -/
theorem insert_desc_mem {x c : Combatant} : ∀ {l : List Combatant},
    x ∈ CombatManager.insert_desc c l ↔ x = c ∨ x ∈ l := by
  intro l
  induction l with
  | nil => simp [CombatManager.insert_desc]
  | cons y ys ih =>
    unfold CombatManager.insert_desc
    split
    · simp only [List.mem_cons, ih]
      tauto
    · simp only [List.mem_cons]

/-- The stable sort is a permutation membership-wise. -/
theorem sort_desc_mem {x : Combatant} : ∀ {l : List Combatant},
    x ∈ CombatManager.sort_desc l ↔ x ∈ l := by
  intro l
  induction l with
  | nil => simp [CombatManager.sort_desc]
  | cons y ys ih =>
    simp only [CombatManager.sort_desc, insert_desc_mem, ih, List.mem_cons]

/-- Insertion grows the length by one. -/
theorem insert_desc_length (c : Combatant) : ∀ (l : List Combatant),
    (CombatManager.insert_desc c l).length = l.length + 1 := by
  intro l
  induction l with
  | nil => rfl
  | cons y ys ih =>
    unfold CombatManager.insert_desc
    split
    · simp [ih]
    · simp

/-- The stable sort keeps the length. -/
theorem sort_desc_length : ∀ (l : List Combatant),
    (CombatManager.sort_desc l).length = l.length := by
  intro l
  induction l with
  | nil => rfl
  | cons y ys ih => simp [CombatManager.sort_desc, insert_desc_length, ih]

/-- The registration tail of `start_combat` preserves the liveness
invariant: a freshly registered instance has only living combatants and at
least two of them, and the first `_start_turn` preserves that. -/
theorem start_finish_inv (s : CombatManager.ManagerState) (room : String)
    (roll : Nat → Int) (loop : Bool) (fuel : Nat) (rng : List NpcRoll)
    (cs : List Combatant) (hs : CombatManager.live_invariant s)
    (hko : ∀ x ∈ cs, x.is_knocked_out = false) :
    CombatManager.live_invariant
      (CombatManager.start_finish s room roll loop fuel rng cs).1 := by
  unfold CombatManager.start_finish
  by_cases hlen : cs.length < 2
  · simpa [hlen] using hs
  · simp only [hlen, if_false]
    have hsorted_ko : ∀ x ∈ CombatManager.sort_desc (CombatManager.roll_initiative roll 0 cs),
        x.is_knocked_out = false := by
      intro x hx
      exact roll_initiative_not_ko roll 0 cs hko x (sort_desc_mem.mp hx)
    have hsorted_len :
        (CombatManager.sort_desc (CombatManager.roll_initiative roll 0 cs)).length = cs.length := by
      rw [sort_desc_length, roll_initiative_length]
    have hinst : (CombatInstance.mk
        (CombatManager.sort_desc (CombatManager.roll_initiative roll 0 cs))
          0 room none 1).get_active_combatants ≠ [] := by
      simp only [CombatInstance.get_active_combatants]
      intro hnil
      rw [List.filter_eq_nil_iff] at hnil
      have hne : CombatManager.sort_desc (CombatManager.roll_initiative roll 0 cs) ≠ [] := by
        intro hempty
        rw [hempty] at hsorted_len
        simp at hsorted_len
        omega
      obtain ⟨a, ha⟩ := List.exists_mem_of_ne_nil _ hne
      have := hnil a ha
      simp [hsorted_ko a ha] at this
    cases hST : CombatManager.start_turn fuel loop rng
        (CombatInstance.mk (CombatManager.sort_desc (CombatManager.roll_initiative roll 0 cs))
          0 room none 1) with
    | none => simpa [hST] using hs
    | some inst' =>
      simp only [hST]
      intro inst hmem
      rcases List.mem_cons.mp hmem with rfl | hm
      · exact start_turn_inv _ _ _ _ _ hinst hST
      · exact hs inst hm

/-- `start_combat` preserves the liveness invariant. -/
theorem start_combat_inv (s : CombatManager.ManagerState) (attacker_id : Int)
    (sessions : List (Int × Character)) (ap dp : List Int)
    (target : CombatManager.CombatTarget) (room : String) (roll : Nat → Int)
    (loop : Bool) (fuel : Nat) (rng : List NpcRoll)
    (hs : CombatManager.live_invariant s) :
    CombatManager.live_invariant
      (CombatManager.start_combat s attacker_id sessions ap dp target room roll loop
        fuel rng).1 := by
  unfold CombatManager.start_combat
  cases hL : sessions.lookup attacker_id with
  | none => simpa using hs
  | some ch =>
    simp only [hL]
    cases hic : CombatManager.is_in_combat s attacker_id with
    | true => simpa using hs
    | false =>
      simp only
      cases target with
      | player target_id =>
        simp only
        cases hit : CombatManager.is_in_combat s target_id with
        | true => simpa using hs
        | false =>
          simp only
          apply start_finish_inv _ _ _ _ _ _ _ hs
          intro x hx
          rcases List.mem_append.mp hx with hx | hx
          · exact build_team_not_ko _ _ _ _ x hx
          · exact build_team_not_ko _ _ _ _ x hx
      | npc npc_id nch =>
        simp only
        apply start_finish_inv _ _ _ _ _ _ _ hs
        intro x hx
        rcases List.mem_append.mp hx with hx | hx
        · exact build_team_not_ko _ _ _ _ x hx
        · simp only [List.mem_singleton] at hx
          subst hx
          rfl

/-- Every manager step preserves the liveness invariant. -/
theorem step_inv {s s' : CombatManager.ManagerState} (hstep : CombatManager.Step s s')
    (hs : CombatManager.live_invariant s) : CombatManager.live_invariant s' := by
  cases hstep with
  | start attacker_id sessions ap dp target room roll loop fuel rng =>
    exact start_combat_inv s attacker_id sessions ap dp target room roll loop fuel rng hs
  | input fuel loop character_id raw roll flee rng =>
    exact handle_input_inv s fuel loop character_id raw roll flee rng hs
  | timeout i fuel loop character_id rng =>
    exact timeout_fire_inv s i fuel loop character_id rng hs
  | disconnect character_id =>
    exact remove_player_inv s character_id hs
  | recovery i j =>
    exact recovery_fire_inv s i j hs

/-- Every reachable registry state satisfies the liveness invariant. -/
theorem reachable_inv {s : CombatManager.ManagerState}
    (h : CombatManager.Reachable s) : CombatManager.live_invariant s := by
  induction h with
  | init => intro inst hmem; cases hmem
  | step _ hstep ih => exact step_inv hstep ih

/- ------------------------------------------------------------------ -/
/- Claim C2                                                            -/
/- ------------------------------------------------------------------ -/

/-- C2: whenever a CombatInstance still has a non-knocked-out combatant,
`current_combatant` resolves to one that is not knocked out; and in every
reachable registry state, any instance a character id still maps to through
the active-combat index has a living combatant — equivalently, once no
living combatant remains the instance has already been torn down. -/
theorem current_combatant_alive_and_teardown :
    (∀ c : CombatInstance, c.get_active_combatants ≠ [] →
      ∃ x, c.current_combatant = some x ∧ x.is_knocked_out = false)
    ∧ (∀ s : CombatManager.ManagerState, CombatManager.Reachable s →
        ∀ (inst : CombatInstance) (character_id : Int) (i : Nat),
          CombatManager.find_combat_idx s character_id = some i → s[i]? = some inst →
          inst.get_active_combatants ≠ []) := by
  constructor
  · intro c hact
    have hcne : c.combatants.isEmpty = false := by
      cases hcc : c.combatants.isEmpty
      · rfl
      · exfalso
        apply hact
        have hnil : c.combatants = [] := List.isEmpty_iff.mp hcc
        simp [CombatInstance.get_active_combatants, hnil]
    have hane : c.get_active_combatants.isEmpty = false := by
      cases haa : c.get_active_combatants.isEmpty
      · rfl
      · exact absurd (List.isEmpty_iff.mp haa) hact
    have hlen : 0 < c.get_active_combatants.length := by
      cases hl : c.get_active_combatants with
      | nil => exact absurd hl hact
      | cons a as => simp [hl]
    have hidx : c.current_turn_index % c.get_active_combatants.length <
        c.get_active_combatants.length := Nat.mod_lt _ hlen
    refine ⟨c.get_active_combatants[c.current_turn_index % c.get_active_combatants.length],
      ?_, ?_⟩
    · simp only [CombatInstance.current_combatant, hcne, Bool.false_eq_true, if_false, hane]
      exact List.getElem?_eq_getElem hidx
    · have hmem := List.getElem_mem hidx
      have hmf : c.get_active_combatants[c.current_turn_index %
          c.get_active_combatants.length] ∈ c.combatants.filter (fun x => !x.is_knocked_out) := by
        simpa [CombatInstance.get_active_combatants] using hmem
      have := (List.mem_filter.mp hmf).2
      simpa using this
  · intro s hreach inst character_id i hfind hget
    exact reachable_inv hreach inst (mem_of_getElem_opt hget)

/-- Witness for C2: a two-combatant instance with a living combatant, and
the reachable registry state produced by starting a player-vs-NPC combat,
whose single registered instance the index still resolves. -/
theorem current_combatant_alive_and_teardown_witness :
    (∃ x, (CombatInstance.mk
        [⟨1, ⟨"Hero", 100, 100, 10, false, none⟩, 0, false, false, false, 20⟩,
         ⟨999, ⟨"Goblin", 30, 50, 5, false, none⟩, 1, false, false, true, 15⟩]
        0 "arena" none 1).current_combatant = some x ∧ x.is_knocked_out = false)
    ∧ (CombatInstance.mk
        [⟨1, ⟨"Hero", 100, 100, 10, false, none⟩, 0, false, false, false, 20⟩,
         ⟨999, ⟨"Goblin", 30, 50, 5, false, none⟩, 1, false, false, true, 15⟩]
        0 "arena" none 1).get_active_combatants ≠ [] := by
  constructor
  · exact current_combatant_alive_and_teardown.1 _ (by decide)
  · exact current_combatant_alive_and_teardown.2
      (CombatManager.start_combat [] 1 [(1, ⟨"Hero", 100, 100, 10, false, none⟩)] [] []
        (CombatManager.CombatTarget.npc 999 ⟨"Goblin", 30, 50, 5, false, none⟩)
        "arena" (fun _ => 10) false 1 []).1
      (CombatManager.Reachable.step CombatManager.Reachable.init
        (CombatManager.Step.start [] 1 [(1, ⟨"Hero", 100, 100, 10, false, none⟩)] [] []
          (CombatManager.CombatTarget.npc 999 ⟨"Goblin", 30, 50, 5, false, none⟩)
          "arena" (fun _ => 10) false 1 []))
      _ 1 0 (by decide) (by decide)

/- ------------------------------------------------------------------ -/
/- Claim C3                                                            -/
/- ------------------------------------------------------------------ -/

/-- Every recorded position is at least the starting offset. -/
theorem activePositionsAux_ge : ∀ (l : List Combatant) (i : Nat),
    ∀ j ∈ activePositionsAux i l, i ≤ j := by
  intro l
  induction l with
  | nil =>
    intro i j hj
    cases hj
  | cons c cs ih =>
    intro i j hj
    unfold activePositionsAux at hj
    by_cases hc : (!c.is_knocked_out) = true
    · rw [if_pos hc] at hj
      rcases List.mem_cons.mp hj with rfl | hj
      · exact Nat.le_refl j
      · exact Nat.le_of_succ_le (ih (i + 1) j hj)
    · rw [if_neg hc] at hj
      exact Nat.le_of_succ_le (ih (i + 1) j hj)

/-- The positional and the object views of the living combatants have the
same length. -/
theorem activePositionsAux_length : ∀ (l : List Combatant) (i : Nat),
    (activePositionsAux i l).length = (l.filter (fun x => !x.is_knocked_out)).length := by
  intro l
  induction l with
  | nil => intro i; rfl
  | cons c cs ih =>
    intro i
    unfold activePositionsAux
    rw [List.filter_cons]
    by_cases hc : (!c.is_knocked_out) = true
    · rw [if_pos hc, if_pos hc]
      simp [ih]
    · rw [if_neg hc, if_neg hc]
      exact ih (i + 1)

/-- The `k`-th recorded position indexes the `k`-th living combatant. -/
theorem activePositionsAux_getElem : ∀ (l : List Combatant) (i k j : Nat),
    (activePositionsAux i l)[k]? = some j →
    i ≤ j ∧ l[j - i]? = (l.filter (fun x => !x.is_knocked_out))[k]? := by
  intro l
  induction l with
  | nil =>
    intro i k j hj
    cases hj
  | cons c cs ih =>
    intro i k j hj
    unfold activePositionsAux at hj
    rw [List.filter_cons]
    by_cases hc : (!c.is_knocked_out) = true
    · rw [if_pos hc] at hj
      rw [if_pos hc]
      cases k with
      | zero =>
        simp only [List.getElem?_cons_zero, Option.some.injEq] at hj
        subst hj
        refine ⟨Nat.le_refl _, ?_⟩
        simp
      | succ k =>
        simp only [List.getElem?_cons_succ] at hj
        obtain ⟨hge, heq⟩ := ih (i + 1) k j hj
        refine ⟨Nat.le_of_succ_le hge, ?_⟩
        have hsub : j - i = (j - (i + 1)) + 1 := by omega
        rw [hsub]
        simpa using heq
    · rw [if_neg hc] at hj
      rw [if_neg hc]
      obtain ⟨hge, heq⟩ := ih (i + 1) k j hj
      refine ⟨Nat.le_of_succ_le hge, ?_⟩
      have hsub : j - i = (j - (i + 1)) + 1 := by omega
      rw [hsub]
      simpa using heq

/-- The positional current-combatant view resolves, and it resolves to the
same object `current_combatant` denotes. -/
theorem current_pos_lookup (c : CombatInstance) (hact : c.get_active_combatants ≠ []) :
    ∃ j, c.current_pos = some j ∧
      c.combatants[j]? =
        c.get_active_combatants[c.current_turn_index % c.get_active_combatants.length]? := by
  have hcne : c.combatants.isEmpty = false := by
    cases hcc : c.combatants.isEmpty
    · rfl
    · exfalso
      apply hact
      have hnil : c.combatants = [] := List.isEmpty_iff.mp hcc
      simp [CombatInstance.get_active_combatants, hnil]
  have hlenap : c.active_positions.length = c.get_active_combatants.length :=
    activePositionsAux_length c.combatants 0
  have hlen : 0 < c.get_active_combatants.length := by
    cases hl : c.get_active_combatants with
    | nil => exact absurd hl hact
    | cons a as => simp [hl]
  have haplen : 0 < c.active_positions.length := by rw [hlenap]; exact hlen
  have hapne : c.active_positions.isEmpty = false := by
    cases haa : c.active_positions.isEmpty
    · rfl
    · rw [List.isEmpty_iff.mp haa] at haplen
      cases haplen
  have hidx : c.current_turn_index % c.active_positions.length <
      c.active_positions.length := Nat.mod_lt _ haplen
  obtain ⟨j, hj⟩ : ∃ j,
      c.active_positions[c.current_turn_index % c.active_positions.length]? = some j :=
    ⟨_, List.getElem?_eq_getElem hidx⟩
  refine ⟨j, ?_, ?_⟩
  · simp only [CombatInstance.current_pos, hcne, Bool.false_eq_true, if_false, hapne]
    exact hj
  · have hbr := activePositionsAux_getElem c.combatants 0
      (c.current_turn_index % c.active_positions.length) j hj
    have := hbr.2
    rw [hlenap] at this
    simpa [CombatInstance.get_active_combatants] using this

/-- Timer bookkeeping never touches the turn index. -/
theorem start_timer_index (loop : Bool) (c : CombatInstance) :
    (CombatManager.start_timer loop c).current_turn_index = c.current_turn_index := by
  unfold CombatManager.start_timer CombatManager.cancel_timer
  split <;> split <;> rfl

/-- Timer bookkeeping never touches the round counter. -/
theorem start_timer_round (loop : Bool) (c : CombatInstance) :
    (CombatManager.start_timer loop c).round_number = c.round_number := by
  unfold CombatManager.start_timer CombatManager.cancel_timer
  split <;> split <;> rfl

/-- Timer bookkeeping never changes which combatant is current. -/
theorem start_timer_current (loop : Bool) (c : CombatInstance) :
    (CombatManager.start_timer loop c).current_combatant = c.current_combatant := by
  unfold CombatInstance.current_combatant CombatInstance.get_active_combatants
  rw [start_timer_combatants, start_timer_index]

/-- When the freshly current combatant is a player, `_start_turn` only
starts the 30-second timer. -/
theorem start_turn_player_step (fuel : Nat) (loop : Bool) (rng : List NpcRoll)
    (c : CombatInstance) (hact : c.get_active_combatants ≠ [])
    (hplayer : ∀ x ∈ c.get_active_combatants[c.current_turn_index %
        c.get_active_combatants.length]?, x.is_npc = false) :
    CombatManager.start_turn (fuel + 1) loop rng c = some (CombatManager.start_timer loop c) := by
  obtain ⟨j, hpos, hcomb⟩ := current_pos_lookup c hact
  have hlen : 0 < c.get_active_combatants.length := by
    cases hl : c.get_active_combatants with
    | nil => exact absurd hl hact
    | cons a as => simp [hl]
  have hidx : c.current_turn_index % c.get_active_combatants.length <
      c.get_active_combatants.length := Nat.mod_lt _ hlen
  obtain ⟨x, hx⟩ : ∃ x, c.get_active_combatants[c.current_turn_index %
      c.get_active_combatants.length]? = some x :=
    ⟨_, List.getElem?_eq_getElem hidx⟩
  have hxnpc : x.is_npc = false := hplayer x (by rw [hx]; rfl)
  unfold CombatManager.start_turn
  simp only [hpos]
  rw [hcomb, hx]
  simp only [hxnpc]

/-- C3 (amended): after a resolved action `_advance_turn` sets the turn
index to (previous index + 1) modulo the length of the POST-action living
list, increments the round counter exactly on wrap to 0, leaves the
combatant list untouched, and the new current combatant is the living
combatant at that position in post-action positional order — which is the
next living combatant by position, but may skip a living combatant when
one positioned before the actor was knocked out or removed during the
action, since no index compensation happens on knockout. -/
theorem advance_turn_next_living (fuel : Nat) (rng : List NpcRoll)
    (combat : CombatInstance) (hact : combat.get_active_combatants ≠ [])
    (hplayer : ∀ x ∈ combat.get_active_combatants[(combat.current_turn_index + 1) %
        combat.get_active_combatants.length]?, x.is_npc = false) :
    ∃ c', CombatManager.advance_turn (fuel + 1) false rng combat = some c'
      ∧ c'.combatants = combat.combatants
      ∧ c'.current_turn_index =
          (combat.current_turn_index + 1) % combat.get_active_combatants.length
      ∧ c'.round_number =
          (if (combat.current_turn_index + 1) % combat.get_active_combatants.length = 0
            then combat.round_number + 1 else combat.round_number)
      ∧ c'.current_combatant = combat.get_active_combatants[(combat.current_turn_index + 1) %
          combat.get_active_combatants.length]? := by
  have hane : combat.get_active_combatants.isEmpty = false := by
    cases haa : combat.get_active_combatants.isEmpty
    · rfl
    · exact absurd (List.isEmpty_iff.mp haa) hact
  have hlen : 0 < combat.get_active_combatants.length := by
    cases hl : combat.get_active_combatants with
    | nil => exact absurd hl hact
    | cons a as => simp [hl]
  have hidxlt : (combat.current_turn_index + 1) % combat.get_active_combatants.length <
      combat.get_active_combatants.length := Nat.mod_lt _ hlen
  set idx := (combat.current_turn_index + 1) % combat.get_active_combatants.length with hidxdef
  have hcore : ∃ c0 : CombatInstance, CombatManager.advance_core combat = some c0
      ∧ c0.combatants = combat.combatants ∧ c0.current_turn_index = idx
      ∧ c0.round_number =
          (if idx = 0 then combat.round_number + 1 else combat.round_number) := by
    unfold CombatManager.advance_core
    simp only [hane]
    cases hI : idx == 0 with
    | true =>
      have : idx = 0 := by simpa using hI
      exact ⟨_, rfl, rfl, rfl, by simp [this]⟩
    | false =>
      have : ¬ idx = 0 := by simpa using hI
      exact ⟨_, rfl, rfl, rfl, by simp [this]⟩
  obtain ⟨c0, hc0, hc0c, hc0i, hc0r⟩ := hcore
  have hc0act : c0.get_active_combatants = combat.get_active_combatants := by
    simp [CombatInstance.get_active_combatants, hc0c]
  have hc0mod : c0.current_turn_index % c0.get_active_combatants.length = idx := by
    rw [hc0i, hc0act]
    exact Nat.mod_eq_of_lt hidxlt
  have hplayer0 : ∀ x ∈ c0.get_active_combatants[c0.current_turn_index %
      c0.get_active_combatants.length]?, x.is_npc = false := by
    rw [hc0mod, hc0act]
    exact hplayer
  have hstep := start_turn_player_step fuel false rng c0 (by rw [hc0act]; exact hact) hplayer0
  refine ⟨CombatManager.start_timer false c0, ?_, ?_, ?_, ?_, ?_⟩
  · unfold CombatManager.advance_turn
    rw [hc0]
    exact hstep
  · rw [start_timer_combatants, hc0c]
  · rw [start_timer_index, hc0i]
  · rw [start_timer_round, hc0r]
  · rw [start_timer_current]
    unfold CombatInstance.current_combatant
    have hc0ne : c0.combatants.isEmpty = false := by
      rw [hc0c]
      cases hcc : combat.combatants.isEmpty
      · rfl
      · exfalso
        apply hact
        have hnil : combat.combatants = [] := List.isEmpty_iff.mp hcc
        simp [CombatInstance.get_active_combatants, hnil]
    have hc0ane : c0.get_active_combatants.isEmpty = false := by rw [hc0act]; exact hane
    simp only [hc0ne, Bool.false_eq_true, if_false, hc0ane]
    rw [hc0mod, hc0act]

/-- C3 counterexample: a four-player fight A(1 hp, team 0), B(team 1),
C(team 0), D(team 1), all alive, with B (position 1) to act.  B attacks A
and knocks it out; C (position 2) stays alive, yet the next current
combatant is D (position 3): the living combatant C strictly between the
actor and the new current combatant was skipped. -/
theorem advance_turn_skips_living :
    (CombatInstance.mk
        [⟨1, ⟨"a", 1, 100, 10, false, none⟩, 0, false, false, false, 0⟩,
         ⟨2, ⟨"b", 100, 100, 10, false, none⟩, 1, false, false, false, 0⟩,
         ⟨3, ⟨"c", 100, 100, 10, false, none⟩, 0, false, false, false, 0⟩,
         ⟨4, ⟨"d", 100, 100, 10, false, none⟩, 1, false, false, false, 0⟩]
        1 "arena" none 1).current_combatant.map (fun x => x.character_id) = some 2
    ∧ ((CombatManager.handle_attack 3 false 1 "a" ⟨true, 0⟩ []
        (CombatInstance.mk
          [⟨1, ⟨"a", 1, 100, 10, false, none⟩, 0, false, false, false, 0⟩,
           ⟨2, ⟨"b", 100, 100, 10, false, none⟩, 1, false, false, false, 0⟩,
           ⟨3, ⟨"c", 100, 100, 10, false, none⟩, 0, false, false, false, 0⟩,
           ⟨4, ⟨"d", 100, 100, 10, false, none⟩, 1, false, false, false, 0⟩]
          1 "arena" none 1)).1.bind
        (fun c => c.current_combatant)).map (fun x => x.character_id) = some 4
    ∧ ((CombatManager.handle_attack 3 false 1 "a" ⟨true, 0⟩ []
        (CombatInstance.mk
          [⟨1, ⟨"a", 1, 100, 10, false, none⟩, 0, false, false, false, 0⟩,
           ⟨2, ⟨"b", 100, 100, 10, false, none⟩, 1, false, false, false, 0⟩,
           ⟨3, ⟨"c", 100, 100, 10, false, none⟩, 0, false, false, false, 0⟩,
           ⟨4, ⟨"d", 100, 100, 10, false, none⟩, 1, false, false, false, 0⟩]
          1 "arena" none 1)).1.bind
        (fun c => c.combatants[2]?)).map
          (fun x => (x.character_id, x.is_knocked_out)) = some (3, false) := by
  refine ⟨by decide, by rfl, by rfl⟩

/-- Witness for the amended C3 at a concrete two-player fight: from index
0 the turn advances to index 1, the second living combatant. -/
theorem advance_turn_next_living_witness :
    (CombatManager.advance_turn 1 false []
        (CombatInstance.mk
          [⟨1, ⟨"a", 100, 100, 10, false, none⟩, 0, false, false, false, 0⟩,
           ⟨2, ⟨"b", 100, 100, 10, false, none⟩, 1, false, false, false, 0⟩]
          0 "arena" none 1)).map
      (fun c => (c.current_turn_index, c.current_combatant.map (fun x => x.character_id))) =
      some (1, some 2) := by
  obtain ⟨c', heq, hcomb, hidx, hround, hcur⟩ :=
    advance_turn_next_living 0 []
      (CombatInstance.mk
        [⟨1, ⟨"a", 100, 100, 10, false, none⟩, 0, false, false, false, 0⟩,
         ⟨2, ⟨"b", 100, 100, 10, false, none⟩, 1, false, false, false, 0⟩]
        0 "arena" none 1)
      (by decide) (by decide)
  rw [heq]
  have h1 : c'.current_turn_index = 1 := by
    rw [hidx]
    decide
  have h2 : c'.current_combatant.map (fun x => x.character_id) = some 2 := by
    rw [hcur]
    decide
  simp [h1, h2]

/- ------------------------------------------------------------------ -/
/- Claim C8                                                            -/
/- ------------------------------------------------------------------ -/

/-- C8 (amended): an unrecognized first token submitted by the combatant
whose turn it currently is returns exactly the help hint and mutates
nothing — combatant list, flags, health, turn index and round counter are
untouched and the turn does not advance — EXCEPT the turn-timer handle,
which `handle_combat_input` has already cancelled before dispatching on
the verb. -/
theorem handle_combat_input_unrecognized (fuel : Nat) (loop : Bool) (character_id : Int)
    (raw_input : String) (roll : AttackRoll) (flee_roll : Bool) (rng : List NpcRoll)
    (combat : CombatInstance) (cur : Combatant)
    (hcur : combat.current_combatant = some cur)
    (hid : cur.character_id = character_id)
    (hverb : (CombatManager.splitVerb (CombatManager.str_lower
        (CombatManager.str_strip raw_input))).1 ∉
      (["attack", "atk", "a", "defend", "def", "d", "flee", "run", "f"] : List String)) :
    CombatManager.handle_combat_input fuel loop character_id raw_input roll flee_roll rng
        combat =
      (some (CombatManager.cancel_timer combat),
       ["[yellow]Combat actions: [bold]attack[/bold] [target], [bold]defend[/bold], [bold]flee[/bold][/yellow]"]) := by
  unfold CombatManager.handle_combat_input
  simp only [hcur]
  have hne : (cur.character_id != character_id) = false := by simp [hid]
  simp only [hne]
  simp only [List.mem_cons, List.mem_singleton, not_or] at hverb
  obtain ⟨n1, n2, n3, n4, n5, n6, n7, n8, n9, -⟩ := hverb
  simp only [beq_eq_false_iff_ne.mpr n1, beq_eq_false_iff_ne.mpr n2,
    beq_eq_false_iff_ne.mpr n3, beq_eq_false_iff_ne.mpr n4, beq_eq_false_iff_ne.mpr n5,
    beq_eq_false_iff_ne.mpr n6, beq_eq_false_iff_ne.mpr n7, beq_eq_false_iff_ne.mpr n8,
    beq_eq_false_iff_ne.mpr n9, Bool.false_or, Bool.false_eq_true, if_false]

/-- C8 counterexample: with a pending 30-second timer, a garbage verb from
the current combatant does mutate state — the pending timer handle is
cancelled and cleared. -/
theorem handle_combat_input_cancels_timer :
    (CombatInstance.mk
        [⟨1, ⟨"a", 100, 100, 10, false, none⟩, 0, false, false, false, 0⟩,
         ⟨2, ⟨"b", 100, 100, 10, false, none⟩, 1, false, false, false, 0⟩]
        0 "arena" (some false) 1).turn_timer_task = some false
    ∧ ((CombatManager.handle_combat_input 1 false 1 "dance" ⟨true, 0⟩ false []
        (CombatInstance.mk
          [⟨1, ⟨"a", 100, 100, 10, false, none⟩, 0, false, false, false, 0⟩,
           ⟨2, ⟨"b", 100, 100, 10, false, none⟩, 1, false, false, false, 0⟩]
          0 "arena" (some false) 1)).1.map (fun c => c.turn_timer_task)) = some none := by
  refine ⟨rfl, by rfl⟩

/-- Witness for the amended C8 at a concrete pending-timer state and the
garbage verb `dance`. -/
theorem handle_combat_input_unrecognized_witness :
    CombatManager.handle_combat_input 1 false 1 "dance" ⟨true, 0⟩ false []
      (CombatInstance.mk
        [⟨1, ⟨"a", 100, 100, 10, false, none⟩, 0, false, false, false, 0⟩,
         ⟨2, ⟨"b", 100, 100, 10, false, none⟩, 1, false, false, false, 0⟩]
        0 "arena" (some false) 1) =
      (some (CombatInstance.mk
        [⟨1, ⟨"a", 100, 100, 10, false, none⟩, 0, false, false, false, 0⟩,
         ⟨2, ⟨"b", 100, 100, 10, false, none⟩, 1, false, false, false, 0⟩]
        0 "arena" none 1),
       ["[yellow]Combat actions: [bold]attack[/bold] [target], [bold]defend[/bold], [bold]flee[/bold][/yellow]"]) := by
  have h := handle_combat_input_unrecognized 1 false 1 "dance" ⟨true, 0⟩ false []
    (CombatInstance.mk
      [⟨1, ⟨"a", 100, 100, 10, false, none⟩, 0, false, false, false, 0⟩,
       ⟨2, ⟨"b", 100, 100, 10, false, none⟩, 1, false, false, false, 0⟩]
      0 "arena" (some false) 1)
    ⟨1, ⟨"a", 100, 100, 10, false, none⟩, 0, false, false, false, 0⟩
    (by rfl) rfl (by decide)
  rw [h]
  rfl

/- ------------------------------------------------------------------ -/
/- Dict lemmas (towards C9)                                            -/
/- ------------------------------------------------------------------ -/

/-- A dict assignment makes the key look up the new value. -/
theorem dictSet_lookup_self {κ α : Type} [BEq κ] [LawfulBEq κ] (k : κ) (v : α) :
    ∀ l : List (κ × α), (dictSet k v l).lookup k = some v := by
  intro l
  induction l with
  | nil => simp [dictSet, List.lookup]
  | cons p rest ih =>
    obtain ⟨k', v'⟩ := p
    unfold dictSet
    by_cases h : (k' == k) = true
    · rw [if_pos h]
      simp [List.lookup]
    · rw [if_neg h]
      have hne : ¬ k = k' := fun hk => h (by simp [hk])
      have h' : (k == k') = false := beq_eq_false_iff_ne.mpr hne
      simp only [List.lookup, h', Bool.false_eq_true, if_false]
      exact ih

/-- Overwriting an existing key leaves the key sequence of the dict
unchanged. -/
theorem dictSet_keys {κ α : Type} [BEq κ] [LawfulBEq κ] (k : κ) (v : α) :
    ∀ l : List (κ × α), (l.lookup k).isSome →
      (dictSet k v l).map Prod.fst = l.map Prod.fst := by
  intro l
  induction l with
  | nil =>
    intro h
    simp [List.lookup] at h
  | cons p rest ih =>
    obtain ⟨k', v'⟩ := p
    intro h
    unfold dictSet
    by_cases hk : (k' == k) = true
    · rw [if_pos hk]
      simp only [List.map_cons, List.cons.injEq]
      exact ⟨(LawfulBEq.eq_of_beq hk).symm, trivial⟩
    · rw [if_neg hk]
      simp only [List.map_cons, List.cons.injEq]
      refine ⟨trivial, ih ?_⟩
      have hne : ¬ k = k' := fun hkk => hk (by simp [hkk])
      have h' : (k == k') = false := beq_eq_false_iff_ne.mpr hne
      simpa [List.lookup, h'] using h

/-- Room-registry update hits exactly the room with the given uid. -/
theorem lookup_map_update {α : Type} (uid : String) (f : α → α) :
    ∀ l : List (String × α),
      (l.map (fun p => if p.1 == uid then (p.1, f p.2) else p)).lookup uid =
        (l.lookup uid).map f := by
  intro l
  induction l with
  | nil => simp [List.lookup]
  | cons p rest ih =>
    obtain ⟨k', v'⟩ := p
    simp only [List.map_cons]
    by_cases hk : k' = uid
    · subst hk
      rw [if_pos (beq_self_eq_true k')]
      simp [List.lookup]
    · have h1 : (k' == uid) = false := beq_eq_false_iff_ne.mpr hk
      have h2 : (uid == k') = false := beq_eq_false_iff_ne.mpr (Ne.symm hk)
      rw [if_neg (by simp [h1])]
      simp only [List.lookup, h2]
      exact ih

/- ------------------------------------------------------------------ -/
/- Claim C9                                                            -/
/- ------------------------------------------------------------------ -/

/-- C9 (amended): `join` for an identifier that already has a live Session
does not raise, but it is not a no-op: the session-table entry is
overwritten in place (so the table still holds exactly one entry per
identifier, by dict keying) and the player is appended to the room's
present-player list a second time. -/
theorem join_when_already_joined (w : WorldState) (character_id : Int) (player : Nat)
    (room : String) (s0 : GameSession)
    (h : w.sessions.lookup character_id = some s0) :
    (WorldManager.join w character_id player room).sessions.lookup character_id =
      some ⟨character_id, player, room⟩
    ∧ (WorldManager.join w character_id player room).sessions.map Prod.fst =
        w.sessions.map Prod.fst
    ∧ ∀ r0, w.rooms.lookup room = some r0 →
        (WorldManager.join w character_id player room).rooms.lookup room =
          some { r0 with present_players := r0.present_players ++ [player] } := by
  refine ⟨?_, ?_, ?_⟩
  · simp only [WorldManager.join, WorldState.updateRoom]
    exact dictSet_lookup_self _ _ _
  · simp only [WorldManager.join, WorldState.updateRoom]
    exact dictSet_keys _ _ _ (by simp [h])
  · intro r0 hr0
    have hu : (WorldManager.join w character_id player room).rooms.lookup room =
        (w.rooms.lookup room).map
          (fun r => { r with present_players := r.present_players ++ [player] }) :=
      @lookup_map_update RoomState room
        (fun r => { r with present_players := r.present_players ++ [player] }) w.rooms
    rw [hu, hr0]
    rfl

/-- C9 counterexample: joining the same identifier twice duplicates the
player in the room's present-player list — the second `join` is not a
no-op. -/
theorem join_double_not_noop :
    ((WorldManager.join
        (WorldManager.join ⟨[], [("roomA", ⟨"roomA", []⟩)]⟩ 1 10 "roomA")
        1 10 "roomA").rooms.lookup "roomA").map (fun r => r.present_players) =
      some [10, 10]
    ∧ WorldManager.join
        (WorldManager.join ⟨[], [("roomA", ⟨"roomA", []⟩)]⟩ 1 10 "roomA")
        1 10 "roomA" ≠
      WorldManager.join ⟨[], [("roomA", ⟨"roomA", []⟩)]⟩ 1 10 "roomA" := by
  refine ⟨by rfl, by decide⟩

/-- Witness for the amended C9 at a concrete double join. -/
theorem join_when_already_joined_witness :
    (WorldManager.join
        (WorldManager.join ⟨[], [("roomA", ⟨"roomA", []⟩)]⟩ 1 10 "roomA")
        1 10 "roomA").sessions.lookup 1 = some ⟨1, 10, "roomA"⟩
    ∧ (WorldManager.join
        (WorldManager.join ⟨[], [("roomA", ⟨"roomA", []⟩)]⟩ 1 10 "roomA")
        1 10 "roomA").sessions.map Prod.fst =
      (WorldManager.join ⟨[], [("roomA", ⟨"roomA", []⟩)]⟩ 1 10 "roomA").sessions.map
        Prod.fst
    ∧ (WorldManager.join
        (WorldManager.join ⟨[], [("roomA", ⟨"roomA", []⟩)]⟩ 1 10 "roomA")
        1 10 "roomA").rooms.lookup "roomA" = some ⟨"roomA", [10, 10]⟩ := by
  have h := join_when_already_joined
    (WorldManager.join ⟨[], [("roomA", ⟨"roomA", []⟩)]⟩ 1 10 "roomA")
    1 10 "roomA" ⟨1, 10, "roomA"⟩ (by rfl)
  refine ⟨h.1, h.2.1, ?_⟩
  have h3 := h.2.2 ⟨"roomA", [10]⟩ (by rfl)
  simpa using h3

/- ------------------------------------------------------------------ -/
/- Claim C1                                                            -/
/- ------------------------------------------------------------------ -/

/-- A world with character 1 (player object 10) in roomA, roomB empty. -/
def world_c1 : WorldState :=
  ⟨[(1, ⟨1, 10, "roomA"⟩)],
   [("roomA", ⟨"roomA", [10]⟩), ("roomB", ⟨"roomB", []⟩)]⟩

/-- A combat registry in which character 1 fights an NPC. -/
def combat_c1 : CombatManager.ManagerState :=
  [CombatInstance.mk
    [⟨1, ⟨"Fighter", 100, 100, 10, false, none⟩, 0, false, false, false, 10⟩,
     ⟨999, ⟨"Goblin", 30, 50, 5, false, none⟩, 1, false, false, true, 5⟩]
    0 "roomA" none 1]

/-- C1: `move_player` performs no combat check and signals no failure —
with character 1 registered in an active combat instance, the move still
relocates the session and rewrites both room present-player lists.  (The
repository's own test `test_move_blocked_during_combat` expects `False`
and no movement.) -/
theorem move_player_ignores_combat :
    CombatManager.is_in_combat combat_c1 1 = true
    ∧ (WorldManager.move_player world_c1 1 "roomB").sessions.lookup 1 =
        some ⟨1, 10, "roomB"⟩
    ∧ ((WorldManager.move_player world_c1 1 "roomB").rooms.lookup "roomA").map
        (fun r => r.present_players) = some []
    ∧ ((WorldManager.move_player world_c1 1 "roomB").rooms.lookup "roomB").map
        (fun r => r.present_players) = some [10]
    ∧ WorldManager.move_player world_c1 1 "roomB" ≠ world_c1 := by
  refine ⟨by decide, by rfl, by rfl, by rfl, by decide⟩

/- ------------------------------------------------------------------ -/
/- Claim C10                                                           -/
/- ------------------------------------------------------------------ -/

/-- C10: a disconnecting character (id 2) that holds a pending invite but
is in no party keeps the invite — `PartyManager.remove_player` returns
before the invite pop when `_find_party_leader` finds nothing. -/
theorem remove_player_keeps_orphan_invite :
    PartyManager.find_party_leader ⟨[], [(2, 1)]⟩ 2 = none
    ∧ PartyManager.remove_player ⟨[], [(2, 1)]⟩ ⟨[], []⟩ 2 =
        (⟨[], [(2, 1)]⟩ : PartyState) := by
  refine ⟨by decide, by decide⟩

/- ------------------------------------------------------------------ -/
/- Claim C6                                                            -/
/- ------------------------------------------------------------------ -/

/-- Three sessions (characters 1, 2, 3; player objects 11, 12, 13) in the
same tavern. -/
def party_c6_world : WorldState :=
  ⟨[(1, ⟨1, 11, "tavern"⟩), (2, ⟨2, 12, "tavern"⟩), (3, ⟨3, 13, "tavern"⟩)],
   [("tavern", ⟨"tavern", [11, 12, 13]⟩)]⟩

/-- The party state after: 1 invites 2; 2 (invite still pending) invites 3;
3 accepts; 2 accepts. -/
def party_c6_final : PartyState :=
  (PartyManager.accept
    (PartyManager.accept
      (PartyManager.invite
        (PartyManager.invite ⟨[], []⟩ party_c6_world 1 2).1
        party_c6_world 2 3).1
      party_c6_world 3).1
    party_c6_world 2).1

/-- C6: after `invite(1,2); invite(2,3); accept(3); accept(2)`, character 2
is a member of two parties at once — the party it leads (with 3) and the
party led by 1 — because `accept` never re-checks that the accepter is
still partyless. -/
theorem accept_allows_two_parties :
    (party_c6_final.parties.filter (fun p => p.2.contains 2)).length = 2
    ∧ party_c6_final.parties.lookup 2 = some [2, 3]
    ∧ party_c6_final.parties.lookup 1 = some [1, 2] := by
  refine ⟨by decide, by decide, by decide⟩

end MUD

